import Mathlib

/-!
A shallow embedding, in Lean 4, of the chapter-detection and chapter-splitting
logic of the `lazy-splitter` repository (`src/pdf_splitter/{detector,splitter}.py`
and `src/epub_splitter/{detector,splitter}.py`), together with theorems settling
the specified properties of that code.

Python strings are modelled as `List Char`; Python floats are modelled as `ℚ`
(every constant appearing in the code is a small decimal, and no comparison in
the code is close enough to a threshold for rounding to matter); the object
model of the external parsing libraries (PyMuPDF / ebooklib / lxml) is modelled
as explicit data (pages of text spans with sizes, outline entries, archive
items), exactly the data the Python code reads off those objects.
-/

namespace LazySplitter

/-- Python strings, modelled as lists of characters. -/
abbrev Str := List Char

/-- Python's `\s` / `str.strip()` whitespace, over ASCII: space, tab,
newline, carriage return, vertical tab, form feed. -/
def isPySpace (c : Char) : Bool :=
  c == ' ' || c == '\t' || c == '\n' || c == '\r' || c == '\x0b' || c == '\x0c'

/-- Python `str.strip()`: remove leading and trailing whitespace. -/
def pyStrip (s : Str) : Str :=
  List.rdropWhile isPySpace (s.dropWhile isPySpace)

/-- `len(text.split())`: the number of maximal whitespace-free runs. -/
def wordCount (s : Str) : Nat :=
  go s true
where
  /-- `go s afterSpace` counts runs; `afterSpace` records whether the previous
  character (if any) was whitespace. -/
  go : Str → Bool → Nat
    | [], _ => 0
    | c :: rest, afterSpace =>
      (if !isPySpace c && afterSpace then 1 else 0) + go rest (isPySpace c)

/-! ## `_sanitize_filename` (identical in `pdf_splitter/splitter.py` and
`epub_splitter/splitter.py`) -/

/-- The invalid filename characters `<>:"/\|?*` of `_sanitize_filename`. -/
def invalidChars : Str := ['<', '>', ':', '"', '/', '\\', '|', '?', '*']

/-- Python `title.replace(char, '_')` for a single character. -/
def pyReplaceChar (s : Str) (a b : Char) : Str :=
  s.map fun c => if c == a then b else c

/-- The `for char in invalid_chars: title = title.replace(char, '_')` loop. -/
def replaceInvalid (s : Str) : Str :=
  invalidChars.foldl (fun acc ch => pyReplaceChar acc ch '_') s

/-- A character matched by the class `[\s_]`. -/
def isSep (c : Char) : Bool := isPySpace c || c == '_'

/-- `re.sub(r'[\s_]+', '_', title)`: replace every maximal run of
whitespace/underscore characters by a single underscore (implemented with a
one-character lookahead: a separator directly followed by another separator
is dropped, the last separator of each run becomes the `_`). -/
def collapseSeps : Str → Str
  | [] => []
  | [c] => if isSep c then ['_'] else [c]
  | c :: d :: rest =>
    if isSep c && isSep d then collapseSeps (d :: rest)
    else (if isSep c then '_' else c) :: collapseSeps (d :: rest)

/-- The adjacency relation left by collapsing: no two neighbouring
separator characters. -/
def NoAdjSeps (s : Str) : Prop :=
  s.Chain' (fun a b => ¬(isSep a = true ∧ isSep b = true))

/-- Python `title.strip('_')`. -/
def stripUnderscores (s : Str) : Str :=
  List.rdropWhile (· == '_') (s.dropWhile (· == '_'))

/-- The truncation step:
`if len(title) > max_length: title = title[:max_length].rstrip('_')`. -/
def truncateTitle (s : Str) (maxLength : Nat) : Str :=
  if maxLength < s.length then List.rdropWhile (· == '_') (s.take maxLength) else s

/-- `_sanitize_filename(title, max_length)` from `pdf_splitter/splitter.py`
(the copy in `epub_splitter/splitter.py` is character-for-character the same):
replace invalid characters by `_`, collapse `[\s_]+` runs to `_`, strip `_`
from both ends, truncate to `max_length` stripping trailing `_`, and fall back
to `"untitled"` when the result is empty. -/
def sanitize_filename (title : Str) (maxLength : Nat := 100) : Str :=
  let t1 := replaceInvalid title
  let t2 := collapseSeps t1
  let t3 := stripUnderscores t2
  let t4 := truncateTitle t3 maxLength
  if t4 = [] then ("untitled".toList) else t4

/-! ## The `CHAPTER_PATTERNS` regular expressions of `pdf_splitter/detector.py`

The detector matches (with `re.match`, i.e. anchored at the start, and
`re.IGNORECASE`) against
`^Chapter\s+(\d+|[IVXLCDM]+)[\s:.-]*(.*?)$`,
`^CHAPTER\s+...` (identical to the previous one under `IGNORECASE`),
`^(\d+)\.\s+(.+)$`,
`^Part\s+(\d+|[IVXLCDM]+)[\s:.-]*(.*?)$` and
`^PART\s+...` (identical to the fourth under `IGNORECASE`).
The matchers below decide matchability of exactly these patterns.  `.` does
not match a newline and `$` matches at the end of the string or just before a
trailing newline, as in Python without `re.DOTALL`/`re.MULTILINE`.  Greedy
versus lazy quantifiers do not affect matchability, and each maximal-munch
step below is justified where backtracking provably cannot help (the character
class that follows is disjoint from the one being munched, or the failure is
caused by a newline that a shorter munch would leave in place). -/

/-- A character matched by the class `[\s:.-]`. -/
def isClassChar (c : Char) : Bool := isPySpace c || c == ':' || c == '.' || c == '-'

/-- `s` matches `.*$`: every newline of `s` must be a single trailing one
(`.` cannot match a newline; `$` also matches just before a trailing
newline). -/
def dotStarEnd (s : Str) : Bool := !(s.dropLast.contains '\n')

/-- `s` matches `.+$`: as `dotStarEnd`, with at least one character matched
by `.` (hence a non-newline one). -/
def dotPlusEnd (s : Str) : Bool :=
  (!s.isEmpty && !s.contains '\n') ||
    (s.getLast? == some '\n' && !s.dropLast.isEmpty && !(s.dropLast.contains '\n'))

/-- `s` matches `[\s:.-]*(.*?)$`: either the class star is empty and the rest
is all `.*$`, or it consumes the head character and the tail matches the same
pattern again. -/
def tailClassStar : Str → Bool
  | [] => true
  | c :: rest => dotStarEnd (c :: rest) || (isClassChar c && tailClassStar rest)

/-- `s` matches `\s*.+$`. -/
def wsStarDotPlusEnd : Str → Bool
  | [] => false
  | c :: rest => dotPlusEnd (c :: rest) || (isPySpace c && wsStarDotPlusEnd rest)

/-- `s` matches `\s+.+$` (one mandatory whitespace, then `\s*.+$`). -/
def wsPlusDotPlusEnd : Str → Bool
  | [] => false
  | c :: rest => isPySpace c && wsStarDotPlusEnd rest

/-- A character matched by `[IVXLCDM]` under `re.IGNORECASE`. -/
def isRomanChar (c : Char) : Bool :=
  let l := c.toLower
  l == 'i' || l == 'v' || l == 'x' || l == 'l' || l == 'c' || l == 'd' || l == 'm'

/-- Case-insensitive literal-keyword consumption (the `Chapter` / `Part`
heads of the patterns, under `re.IGNORECASE`); returns what remains. -/
def stripKeywordCI : Str → Str → Option Str
  | [], t => some t
  | _ :: _, [] => none
  | k :: ks, c :: cs => if c.toLower == k.toLower then stripKeywordCI ks cs else none

/-- Consume `(\d+|[IVXLCDM]+)` at the head of `s` (maximal munch: the
alternatives' character sets are disjoint, and shortening the munched run can
never remove a blocking newline from what follows). -/
def matchOrdinal (s : Str) : Option Str :=
  match s with
  | [] => none
  | c :: _ =>
    if c.isDigit then some (s.dropWhile Char.isDigit)
    else if isRomanChar c then some (s.dropWhile isRomanChar)
    else none

/-- Matchability of `^<keyword>\s+(\d+|[IVXLCDM]+)[\s:.-]*(.*?)$` under
`re.IGNORECASE` (with `keyword` given in lowercase): used for the
`Chapter ...` and `Part ...` patterns. The `\s+` munch is maximal, justified
because the ordinal that must follow starts with a non-whitespace
character. -/
def matchChapterLike (keyword : Str) (text : Str) : Bool :=
  match stripKeywordCI keyword text with
  | none => false
  | some r =>
    match r with
    | [] => false
    | c :: rest =>
      isPySpace c &&
        (match matchOrdinal (rest.dropWhile isPySpace) with
         | none => false
         | some r2 => tailClassStar r2)

/-- Matchability of `^(\d+)\.\s+(.+)$` (the `1. Introduction` style pattern).
The digit munch is maximal: a shorter munch would put a digit where the
literal `.` is required. -/
def matchNumbered (text : Str) : Bool :=
  match text with
  | [] => false
  | c :: _ =>
    c.isDigit &&
      (match text.dropWhile Char.isDigit with
       | '.' :: r2 => wsPlusDotPlusEnd r2
       | _ => false)

/-- `any(re.match(pattern, text, re.IGNORECASE) for pattern in CHAPTER_PATTERNS)`:
under `IGNORECASE` the five patterns collapse to the three distinct matchers
below (the loop's order is irrelevant to the boolean outcome). -/
def matchesChapterPattern (text : Str) : Bool :=
  matchChapterLike ("chapter".toList) text || matchNumbered text ||
    matchChapterLike ("part".toList) text

/-! ## PDF data model (`pdf_splitter/models.py`) and detector
(`pdf_splitter/detector.py`) -/

/-- `Chapter` from `pdf_splitter/models.py`. Pages are `Int` because the
code's page arithmetic is Python integer arithmetic (`page - 1` may go
negative); confidence is `ℚ` for the Python float. -/
structure Chapter where
  title : Str
  start_page : Int
  end_page : Int
  level : Int := 1
  detection_method : Str := ("unknown".toList)
  confidence : ℚ := 1
deriving DecidableEq, Repr

/-- `DetectionResult` from `pdf_splitter/models.py`. -/
structure DetectionResult where
  chapters : List Chapter
  strategy_used : Str
  total_pages : Int
  has_bookmarks : Bool
deriving DecidableEq, Repr

/-- One entry `[level, title, page]` of the list returned by
`fitz.Document.get_toc()`. -/
structure TocEntry where
  level : Int
  title : Str
  page : Int
deriving DecidableEq, Repr

/-- One text span of PyMuPDF's `page.get_text("dict")` output: its stripped
source `text` and typographic `size`. -/
structure Span where
  text : Str
  size : ℚ
deriving DecidableEq, Repr

/-- One line of a text block: a sequence of spans. -/
structure Line where
  spans : List Span
deriving DecidableEq, Repr

/-- One block of a page; `btype` is the block's `"type"` field (`0` for text
blocks). -/
structure Block where
  btype : Int
  lines : List Line
deriving DecidableEq, Repr

/-- A page is its list of blocks; a document is its list of pages plus its
outline. -/
abbrev Page := List Block

/-- `ChapterDetector._set_thresholds`: the sensitivity presets
`low ↦ (1.5, 0.8)`, `medium ↦ (1.3, 0.6)`, `high ↦ (1.2, 0.4)`, with
`thresholds.get(self.sensitivity, thresholds["medium"])` defaulting every
other string to the medium preset. Returns `(font_size_ratio, min_confidence)`. -/
def set_thresholds (sensitivity : Str) : ℚ × ℚ :=
  if sensitivity = ("low".toList) then (1.5, 0.8)
  else if sensitivity = ("medium".toList) then (1.3, 0.6)
  else if sensitivity = ("high".toList) then (1.2, 0.4)
  else (1.3, 0.6)

/-- Python's binary `min`, as an executable conditional. -/
def pyMin (a b : ℚ) : ℚ := if a ≤ b then a else b

/-- Python's binary `max`, as an executable conditional. -/
def pyMax (a b : ℚ) : ℚ := if b ≤ a then a else b

/-- `ChapterDetector._calculate_confidence(text, font_size)`: base `0.5`,
`+0.4` on a pattern match, `+0.1` for size `≥ 16` else `+0.05` for size
`≥ 14`, `−0.2` for more than 10 words else `−0.1` for more than 6, finally
`min(1.0, max(0.0, confidence))`. -/
def calculate_confidence (text : Str) (font_size : ℚ) : ℚ :=
  let c0 : ℚ := 0.5
  let c1 := if matchesChapterPattern text then c0 + 0.4 else c0
  let c2 := if font_size ≥ 16 then c1 + 0.1
            else if font_size ≥ 14 then c1 + 0.05
            else c1
  let wc := wordCount text
  let c3 := if wc > 10 then c2 - 0.2
            else if wc > 6 then c2 - 0.1
            else c2
  pyMin 1 (pyMax 0 c3)

/-- The positive span sizes collected by `_get_average_font_size`: every span
of every line of every `type == 0` block whose size is `> 0`. -/
def collectedSizes (blocks : List Block) : List ℚ :=
  ((blocks.filter (fun b => b.btype == 0)).flatMap
    (fun b => b.lines.flatMap (fun ln => ln.spans.map (·.size)))).filter
    (fun sz => 0 < sz)

/-- `ChapterDetector._get_average_font_size(blocks)`: average of the positive
span sizes of the page's text blocks, `0` if there are none. -/
def get_average_font_size (blocks : List Block) : ℚ :=
  let sizes := collectedSizes blocks
  if sizes.isEmpty then 0 else sizes.sum / sizes.length

/-- `ChapterDetector._is_potential_heading(text, font_size, all_blocks)`:
a pattern match qualifies outright; otherwise the size must reach
`avg * font_size_ratio` against a positive page average and the text must
have at most 10 words. -/
def is_potential_heading (font_size_ratio : ℚ) (text : Str) (font_size : ℚ)
    (all_blocks : List Block) : Bool :=
  matchesChapterPattern text ||
    (let avg := get_average_font_size all_blocks
     0 < avg && font_size ≥ avg * font_size_ratio && wordCount text ≤ 10)

/-- The scan of one line's spans in `_detect_from_heuristics`: spans are
visited in order until the first whose stripped text is non-empty and
qualifies as a potential heading (the loop `break`s there whether or not the
confidence threshold is met); the candidate `(page_num + 1, text, confidence)`
is emitted only when `confidence >= min_confidence`. -/
def scanLine (font_size_ratio min_confidence : ℚ) (all_blocks : List Block)
    (page_num : Nat) (spans : List Span) : Option (Nat × Str × ℚ) :=
  match spans.find? (fun sp =>
      !(pyStrip sp.text).isEmpty &&
        is_potential_heading font_size_ratio (pyStrip sp.text) sp.size all_blocks) with
  | none => none
  | some sp =>
    let t := pyStrip sp.text
    let confidence := calculate_confidence t sp.size
    if confidence ≥ min_confidence then some (page_num + 1, t, confidence) else none

/-- The `potential_chapters` list built by `_detect_from_heuristics`: pages in
order (0-indexed, emitted 1-indexed), text blocks in order, lines in order,
one candidate at most per line. -/
def potential_chapters (font_size_ratio min_confidence : ℚ) (pages : List Page) :
    List (Nat × Str × ℚ) :=
  pages.enum.flatMap fun pb =>
    ((pb.2.filter (fun b => b.btype == 0)).flatMap fun b =>
      b.lines.filterMap fun ln =>
        scanLine font_size_ratio min_confidence pb.2 pb.1 ln.spans)

/-- The body of the chapter-building loop of `_detect_from_heuristics` for
candidate index `i`: the chapter runs from the candidate's page to the page
before candidate `i+1`'s, the last candidate running to the end of the
document. -/
def heuristicChapterAt (pcs : List (Nat × Str × ℚ)) (total_pages : Int)
    (i : Nat) : Option Chapter :=
  (pcs.get? i).map fun pc =>
    let end_page : Int :=
      match pcs.get? (i + 1) with
      | some nxt => (nxt.1 : Int) - 1
      | none => total_pages
    { title := pc.2.1, start_page := (pc.1 : Int), end_page := end_page,
      detection_method := ("heuristic".toList), confidence := pc.2.2 }

/-- `ChapterDetector._detect_from_heuristics(doc)`: candidate `i` becomes a
chapter from its page to the page before candidate `i+1`'s (the last one runs
to the end of the document); no `start ≤ end` check is performed here. -/
def detect_from_heuristics (font_size_ratio min_confidence : ℚ)
    (pages : List Page) : List Chapter :=
  let pcs := potential_chapters font_size_ratio min_confidence pages
  (List.range pcs.length).filterMap (heuristicChapterAt pcs pages.length)

/-- The body of the chapter-building loop of `_detect_from_bookmarks` for
filtered-entry index `i`: the chapter runs from the entry's page to the page
before entry `i+1`'s (the last entry running to the end of the document), and
is dropped when `start_page > end_page`. -/
def bookmarkChapterAt (items : List TocEntry) (total_pages : Int) (i : Nat) :
    Option Chapter :=
  match items.get? i, items.get? (i + 1) with
  | none, _ => none
  | some it, nxt? =>
    let end_page : Int :=
      match nxt? with
      | some nxt => nxt.page - 1
      | none => total_pages
    if it.page ≤ end_page then
      some { title := pyStrip it.title, start_page := it.page,
             end_page := end_page, level := it.level,
             detection_method := ("bookmark".toList), confidence := 1 }
    else none

/-- `ChapterDetector._detect_from_bookmarks(doc, bookmark_level)`: filter the
outline to the requested level; entry `i` spans from its page to the page
before entry `i+1`'s (the last entry runs to the end of the document); an
entry with `start_page > end_page` is dropped. -/
def detect_from_bookmarks (toc : List TocEntry) (total_pages : Int)
    (bookmark_level : Int) : List Chapter :=
  if toc.isEmpty then []
  else
    let items := toc.filter (fun it => it.level == bookmark_level)
    (List.range items.length).filterMap (bookmarkChapterAt items total_pages)

/-- `ChapterDetector.detect(pdf_path, strategy, bookmark_level)`.  The
document is modelled by its pages and its outline.  Mirrors the source
control flow: the bookmarks stage runs for `strategy == "bookmarks"` or for
`"hybrid"` with a non-empty outline; the heuristic stage runs when the
chapter list is still empty and `strategy` is `"heuristic"` or `"hybrid"`;
an empty final list is replaced by the single whole-document fallback
chapter.  The `strategy_used` assignments made inside the stages are dead in
the source: the final `if/else` overwrites them with `"fallback"` or with the
*requested* strategy. -/
def detect (pages : List Page) (toc : List TocEntry) (sensitivity : Str)
    (strategy : Str) (bookmark_level : Int) : DetectionResult :=
  let thresholds := set_thresholds sensitivity
  let total_pages : Int := pages.length
  let has_bookmarks := !toc.isEmpty
  let chapters :=
    if strategy = ("bookmarks".toList) ∨ (strategy = ("hybrid".toList) ∧ has_bookmarks) then
      detect_from_bookmarks toc total_pages bookmark_level
    else []
  let chapters :=
    if chapters.isEmpty ∧ (strategy = ("heuristic".toList) ∨ strategy = ("hybrid".toList)) then
      detect_from_heuristics thresholds.1 thresholds.2 pages
    else chapters
  if chapters.isEmpty then
    { chapters := [{ title := ("Complete Document".toList), start_page := 1,
                     end_page := total_pages,
                     detection_method := ("fallback".toList), confidence := 1 }],
      strategy_used := ("fallback".toList),
      total_pages := total_pages, has_bookmarks := has_bookmarks }
  else
    { chapters := chapters, strategy_used := strategy,
      total_pages := total_pages, has_bookmarks := has_bookmarks }

/-! ## EPUB data model (`epub_splitter/models.py`) and detector
(`epub_splitter/detector.py`)

The ebooklib/lxml object model is embedded as data: an `EpubItem` carries the
answers the Python code reads off the parsed object (its id, href/name, type
constant, the heading elements per tag, its `<title>` text, and whether lxml
parsing of its content raises). -/

/-- `EpubChapter` from `epub_splitter/models.py`. -/
structure EpubChapter where
  title : Str
  file_path : Str
  html_id : Option Str := none
  level : Int := 1
  detection_method : Str := ("unknown".toList)
  confidence : ℚ := 1
  content_length : Int := 0
deriving DecidableEq, Repr

/-- `EpubDetectionResult` from `epub_splitter/models.py`. -/
structure EpubDetectionResult where
  chapters : List EpubChapter
  strategy_used : Str
  total_files : Int
  has_toc : Bool
deriving DecidableEq, Repr

/-- A heading element as lxml exposes it to the detector: its
`text_content()` and its optional `id` attribute. -/
structure Heading where
  text : Str
  html_id : Option Str
deriving DecidableEq, Repr

/-- `ebooklib.ITEM_DOCUMENT`. -/
def ITEM_DOCUMENT : Int := 9

/-- One item of the EPUB archive, carrying the data the Python code queries
from ebooklib/lxml: `item_id` (`get_id`), `name` (`get_name()` /
`get_item_with_href` key), `item_type` (`get_type()`), the heading elements
`tree.xpath("//h1")`, `...//h2`, `...//h3` in document order per tag, the
text of the first `<title>` element, and `parse_fails` — whether
`lxml_html.fromstring(item.get_content())` raises on this item's content. -/
structure EpubItem where
  item_id : Str
  name : Str
  item_type : Int
  h1s : List Heading := []
  h2s : List Heading := []
  h3s : List Heading := []
  title_tag : Option Str := none
  parse_fails : Bool := false
deriving DecidableEq, Repr

/-- The headings of one tag name (`"h1"`/`"h2"`/`"h3"`) of an item. -/
def EpubItem.headings (it : EpubItem) (tag : Str) : List Heading :=
  if tag = ("h1".toList) then it.h1s
  else if tag = ("h2".toList) then it.h2s
  else if tag = ("h3".toList) then it.h3s
  else []

/-- A node of `book.toc` as `_extract_toc_entries` inspects it: either a
plain link object with `title`/`href`, or a `(Section, children)` tuple whose
section also carries `title`/`href`. -/
inductive TocItem where
  | link (title href : Str) : TocItem
  | sec (title href : Str) (children : List TocItem) : TocItem

/-- The `EpubBook` object as the detector and splitter consume it:
`book.toc`, the `ITEM_DOCUMENT` items in `get_items_of_type` order, the spine
as its list of item ids, and the full item list backing
`get_item_with_id` / `get_item_with_href`. -/
structure EpubBook where
  toc : List TocItem
  documents : List EpubItem
  spine : List Str
  items : List EpubItem

/-- `book.get_item_with_id(item_id)`. -/
def EpubBook.get_item_with_id (book : EpubBook) (item_id : Str) : Option EpubItem :=
  book.items.find? (fun it => it.item_id == item_id)

/-- `book.get_item_with_href(href)`. -/
def EpubBook.get_item_with_href (book : EpubBook) (href : Str) : Option EpubItem :=
  book.items.find? (fun it => it.name == href)

/-- `EpubChapterDetector._parse_href(href)`: split on the first `#`;
the id component is `None` when there is no `#`. -/
def parse_href (href : Str) : Str × Option Str :=
  if href.contains '#' then
    (href.takeWhile (· ≠ '#'), some ((href.dropWhile (· ≠ '#')).drop 1))
  else (href, none)

/-- `EpubChapterDetector._extract_toc_entries(toc_items, chapters, current_level)`:
a `(Section, children)` tuple contributes the section itself and then its
children one level deeper; a plain link contributes itself; output order is
Python's append order. -/
def extract_toc_entries (current_level : Int) : List TocItem → List EpubChapter
  | [] => []
  | .link title href :: rest =>
    { title := title, file_path := (parse_href href).1,
      html_id := (parse_href href).2, level := current_level,
      detection_method := ("native".toList), confidence := 1 }
      :: extract_toc_entries current_level rest
  | .sec title href children :: rest =>
    { title := title, file_path := (parse_href href).1,
      html_id := (parse_href href).2, level := current_level,
      detection_method := ("native".toList), confidence := 1 }
      :: (extract_toc_entries (current_level + 1) children
          ++ extract_toc_entries current_level rest)

/-- `EpubChapterDetector._detect_from_toc(book)`: empty TOC reports
`(no chapters, no TOC)`; otherwise flatten the TOC and, when `toc_level > 0`,
keep only entries of that level. -/
def detect_from_toc (toc_level : Int) (book : EpubBook) :
    List EpubChapter × Bool :=
  if book.toc.isEmpty then ([], false)
  else
    let chapters := extract_toc_entries 1 book.toc
    let chapters :=
      if toc_level > 0 then chapters.filter (fun ch => ch.level == toc_level)
      else chapters
    (chapters, true)

/-- The `heading_tags` table of `_detect_from_structure`, including its
`.get(self.sensitivity, ["h1", "h2"])` default. -/
def heading_tags (sensitivity : Str) : List Str :=
  if sensitivity = ("low".toList) then [("h1".toList)]
  else if sensitivity = ("medium".toList) then [("h1".toList), ("h2".toList)]
  else if sensitivity = ("high".toList) then
    [("h1".toList), ("h2".toList), ("h3".toList)]
  else [("h1".toList), ("h2".toList)]

/-- The integer `int(tag[1])` of a heading tag name. -/
def tagLevel (tag : Str) : Int :=
  if tag = ("h1".toList) then 1 else if tag = ("h2".toList) then 2 else 3

/-- The fixed per-tag confidence `1.0 if tag == "h1" else 0.7 if tag == "h2"
else 0.5`. -/
def tagConfidence (tag : Str) : ℚ :=
  if tag = ("h1".toList) then 1 else if tag = ("h2".toList) then 0.7 else 0.5

/-- `EpubChapterDetector._detect_from_structure(book)`: for each document
item (skipping those whose content fails to parse), for each heading tag of
the sensitivity preset **in tag order** (all `h1` elements of the item before
all its `h2` elements, regardless of document position), each heading with
non-empty stripped text becomes a chapter. -/
def detect_from_structure (sensitivity : Str) (book : EpubBook) :
    List EpubChapter :=
  let tags := heading_tags sensitivity
  book.documents.flatMap fun it =>
    if it.parse_fails then []
    else
      tags.flatMap fun tag =>
        (it.headings tag).filterMap fun h =>
          let title := pyStrip h.text
          if title.isEmpty then none
          else some { title := title, file_path := it.name, html_id := h.html_id,
                      level := tagLevel tag,
                      detection_method := ("structural".toList),
                      confidence := tagConfidence tag }

/-- `EpubChapterDetector._extract_title_from_content(item)`: the `<title>`
text, else the first `h1`'s text, else the first `h2`'s, else empty; a parse
failure yields empty. -/
def extract_title_from_content (it : EpubItem) : Str :=
  if it.parse_fails then []
  else
    match it.title_tag with
    | some t => pyStrip t
    | none =>
      match it.h1s with
      | h :: _ => pyStrip h.text
      | [] =>
        match it.h2s with
        | h :: _ => pyStrip h.text
        | [] => []

/-- `Path(name).stem`: the final path component without its last extension
(a lone leading dot is not an extension). -/
def pathStem (name : Str) : Str :=
  let base := (name.reverse.takeWhile (· ≠ '/')).reverse
  let ext := base.reverse.takeWhile (· ≠ '.')
  if base.contains '.' ∧ ext.length + 1 < base.length then
    base.take (base.length - (ext.length + 1))
  else base

/-- Python `str.title()`: uppercase each letter that starts a letter run,
lowercase the rest. -/
def pyTitleCase (s : Str) : Str :=
  go s false
where
  /-- `go s prevAlpha` walks the string remembering whether the previous
  character was a letter. -/
  go : Str → Bool → Str
    | [], _ => []
    | c :: rest, prevAlpha =>
      (if c.isAlpha then (if prevAlpha then c.toLower else c.toUpper) else c)
        :: go rest c.isAlpha

/-- `EpubChapterDetector._detect_from_manifest(book)`: one chapter per spine
entry that resolves to an `ITEM_DOCUMENT` item, titled from its content or
from its filename (`Path(name).stem.replace("_", " ").title()`). -/
def detect_from_manifest (book : EpubBook) : List EpubChapter :=
  book.spine.filterMap fun item_id =>
    (match book.get_item_with_id item_id with
    | none => none
    | some it =>
      if it.item_type == ITEM_DOCUMENT then
        let t := extract_title_from_content it
        let title := if t.isEmpty then
            pyTitleCase (pyReplaceChar (pathStem it.name) '_' ' ')
          else t
        some { title := title, file_path := it.name, html_id := none,
               level := 1, detection_method := ("manifest".toList),
               confidence := 0.6 }
      else none : Option EpubChapter)

/-- `EpubChapterDetector.detect(epub_path)`: dispatch on the configured
strategy (`native` / `structural` / `manifest`, anything else taking the
`hybrid` branch); in the hybrid branch the TOC result falls back to
structural detection and then to the manifest, with `strategy_used` recording
the stage (suffixed `" (fallback)"`).  No whole-document fallback chapter
exists on the EPUB side: the result's chapter list is returned as the stages
leave it, possibly empty. -/
def epubDetect (strategy sensitivity : Str) (toc_level : Int)
    (book : EpubBook) : EpubDetectionResult :=
  let total_files : Int := book.documents.length
  if strategy = ("native".toList) then
    let tocResult := detect_from_toc toc_level book
    { chapters := tocResult.1, strategy_used := ("native".toList),
      total_files := total_files, has_toc := tocResult.2 }
  else if strategy = ("structural".toList) then
    { chapters := detect_from_structure sensitivity book,
      strategy_used := ("structural".toList),
      total_files := total_files, has_toc := false }
  else if strategy = ("manifest".toList) then
    { chapters := detect_from_manifest book,
      strategy_used := ("manifest".toList),
      total_files := total_files, has_toc := false }
  else
    let tocResult := detect_from_toc toc_level book
    let has_toc := tocResult.2
    let chapters := tocResult.1
    let su := if chapters.isEmpty then ("structural (fallback)".toList)
              else ("native".toList)
    let chapters := if chapters.isEmpty then detect_from_structure sensitivity book
                    else chapters
    let su := if chapters.isEmpty then ("manifest (fallback)".toList) else su
    let chapters := if chapters.isEmpty then detect_from_manifest book else chapters
    { chapters := chapters, strategy_used := su,
      total_files := total_files, has_toc := has_toc }

/-! ## Splitters (`pdf_splitter/splitter.py`, `epub_splitter/splitter.py`)

The file-system side effects are modelled by the value each split call
returns: the list of created output files, in creation order.  The call to
Python's `str.format` on the filename pattern is kept symbolic: an output
name is the record of the pattern together with the values substituted into
it, which is injective in exactly the data the code feeds to `format`. -/

/-- The output path `PDFSplitter._generate_filename` produces: the filename
pattern plus the placeholder values `index`, `title` (sanitized), `start`,
`end`, `pages` handed to `str.format` (the `.pdf`-extension enforcement
operates on the formatted string and is absorbed into the symbolic name). -/
structure PdfOutName where
  pattern : Str
  index : Nat
  title : Str
  start_page : Int
  end_page : Int
  pages : Int
deriving DecidableEq, Repr

/-- `PDFSplitter._generate_filename(chapter, index)`. -/
def pdf_generate_filename (pattern : Str) (ch : Chapter) (index : Nat) : PdfOutName :=
  { pattern := pattern, index := index, title := sanitize_filename ch.title,
    start_page := ch.start_page, end_page := ch.end_page,
    pages := ch.end_page - ch.start_page + 1 }

/-- `PDFSplitter.split(pdf_path, chapters, preserve_metadata)`: for each
chapter, in order and 1-indexed, a new document with the chapter's page range
is saved and its path appended to `created_files`; the returned value is that
list. -/
def pdfSplit (pattern : Str) (chapters : List Chapter) : List PdfOutName :=
  chapters.enum.map fun ic => pdf_generate_filename pattern ic.2 (ic.1 + 1)

/-- The output path `EpubSplitter._generate_filename` produces (placeholders
`index`, `title`, `file`; the extension enforcement is again absorbed into
the symbolic name, which records the configured output format). -/
structure EpubOutName where
  pattern : Str
  index : Nat
  title : Str
  file_stem : Str
  output_format : Str
deriving DecidableEq, Repr

/-- `EpubSplitter._generate_filename(chapter, index)`. -/
def epub_generate_filename (pattern output_format : Str) (ch : EpubChapter)
    (index : Nat) : EpubOutName :=
  { pattern := pattern, index := index, title := sanitize_filename ch.title,
    file_stem := pathStem ch.file_path, output_format := output_format }

/-- `EpubSplitter._split_to_epub(epub_path, chapters, preserve_metadata)`:
every chapter, in order and 1-indexed, gets one `write_epub` call (a chapter
whose content item is missing still produces an output book, just a bare
one); the returned value is the list of written paths. -/
def splitToEpub (pattern : Str) (_book : EpubBook) (chapters : List EpubChapter) :
    List EpubOutName :=
  chapters.enum.map fun ic =>
    epub_generate_filename pattern ("epub".toList) ic.2 (ic.1 + 1)

/-- `EpubSplitter._split_to_pdf(epub_path, chapters, preserve_metadata)`:
chapters in order and 1-indexed, but a chapter whose `file_path` resolves to
no item of the book (`if not main_item: continue`) is skipped and produces no
output file; the returned value is the list of written paths. -/
def splitToPdf (pattern : Str) (book : EpubBook) (chapters : List EpubChapter) :
    List EpubOutName :=
  chapters.enum.filterMap fun ic =>
    match book.get_item_with_href ic.2.file_path with
    | none => none
    | some _ => some (epub_generate_filename pattern ("pdf".toList) ic.2 (ic.1 + 1))

/-- `EpubSplitter.split(epub_path, chapters, preserve_metadata)`: dispatch on
the configured output format. -/
def epubSplit (pattern output_format : Str) (book : EpubBook)
    (chapters : List EpubChapter) : List EpubOutName :=
  if output_format = ("pdf".toList) then splitToPdf pattern book chapters
  else splitToEpub pattern book chapters

/-! ## Source-handle lifecycle of `ChapterDetector.detect` and
`PDFSplitter.split`

Both methods run `doc = fitz.open(...)` first and `doc.close()` as their last
statement before building the return value, with no `try`/`finally` and no
context manager in between.  The embedding makes the possibility of an
exception in the intermediate work explicit as an oracle bit (`raises`:
whether any of the library calls between `open` and `close` raises), and
returns, along the `Except` outcome, whether the handle is still open when
control leaves the method. -/

/-- `ChapterDetector.detect` with its handle lifecycle: `fitz.open` succeeds
(the handle is now open); if any intermediate step raises, the exception
propagates past the trailing `doc.close()`, which never runs. -/
def detectWithHandle (pages : List Page) (toc : List TocEntry)
    (sensitivity strategy : Str) (bookmark_level : Int) (raises : Bool) :
    Except Str DetectionResult × Bool :=
  -- doc = fitz.open(pdf_path): handle open from here on.
  if raises then
    -- An exception inside get_toc / _detect_from_* / Chapter construction
    -- propagates immediately; doc.close() is unreachable.
    (Except.error ("exception".toList), true)
  else
    -- Normal path: the body runs to doc.close() and returns.
    (Except.ok (detect pages toc sensitivity strategy bookmark_level), false)

/-- `PDFSplitter.split` with its handle lifecycle, the same shape: the
per-chapter `insert_pdf`/`save` work sits between `fitz.open` and the
trailing `doc.close()` with no `finally`. -/
def splitWithHandle (pattern : Str) (chapters : List Chapter) (raises : Bool) :
    Except Str (List PdfOutName) × Bool :=
  if raises then
    (Except.error ("exception".toList), true)
  else
    (Except.ok (pdfSplit pattern chapters), false)

/-! ## Resource resolution (`EpubSplitter._find_referenced_resources`,
`EpubSplitter._resolve_resource`)

Archive items are identified by their archive-internal path (`get_name()`),
which is also how `get_item_with_href` looks them up; the Python `set` of
item objects is modelled as a duplicate-free list of such paths.  The three
reference kinds the lxml scan extracts from the content unit — stylesheet
`link href`s, `img src`s, and `url(...)` targets inside `<style>` blocks —
are given as the three lists the scan would produce, in scan order. -/

/-- `Path(base_item.get_name()).parent` rendered by `as_posix()`:
everything before the final `/`, empty (pathlib's `.`) when there is none. -/
def parentDir (name : Str) : Str :=
  if name.contains '/' then
    (name.reverse.dropWhile (· ≠ '/')).reverse.dropLast
  else []

/-- `(base_path / href).as_posix()` for a relative `href`: pathlib drops an
empty/`.` left operand and takes over an absolute right operand; no `..`
normalization happens. -/
def joinPosix (base href : Str) : Str :=
  if href.take 1 = ['/'] then href
  else if base.isEmpty then href
  else base ++ '/' :: href

/-- `EpubSplitter._resolve_resource(source_book, base_item, href)`: strip any
fragment, try the href as-is against the book's items, then try it joined to
the referencing item's directory; `none` when both lookups miss. -/
def resolve_resource (book : EpubBook) (base_item : EpubItem) (href : Str) :
    Option EpubItem :=
  let href := href.takeWhile (· ≠ '#')
  match book.get_item_with_href href with
  | some r => some r
  | none => book.get_item_with_href (joinPosix (parentDir base_item.name) href)

/-- `EpubSplitter._find_referenced_resources(source_book, html_item)`: walk
the stylesheet links, the image sources, then the inline-style `url(...)`
references of the unit, adding each resolvable one to a set (modelled as a
duplicate-free accumulator list); unresolvable references contribute
nothing.  If lxml fails to parse the unit (or any step of the scan raises),
the set collected so far is returned — for the data model here, the empty
set. -/
def find_referenced_resources (book : EpubBook) (base_item : EpubItem)
    (cssHrefs imgSrcs styleUrls : List Str) : List EpubItem :=
  if base_item.parse_fails then []
  else
    (cssHrefs ++ imgSrcs ++ styleUrls).foldl
      (fun acc href =>
        match resolve_resource book base_item href with
        | some r => if r ∈ acc then acc else acc ++ [r]
        | none => acc)
      []

/-! ## Spec-side formulation of the range resolution -/

/-- The chapter built from outline entry `it` with resolved end `e`. -/
def bookmarkChapter (it : TocEntry) (e : Int) : Chapter :=
  { title := pyStrip it.title, start_page := it.page, end_page := e,
    level := it.level, detection_method := ("bookmark".toList), confidence := 1 }

/-- The spec's RangeResolver rule, written as a direct recursion over the
(already level-filtered) outline entries: each entry ends one page before the
next entry's start, the last entry ends at the document end, and an entry
whose resolved range has `start > end` is dropped.  `detect_from_bookmarks`
is proved equal to this formulation. -/
def rangeResolverSpec (total_pages : Int) : List TocEntry → List Chapter
  | [] => []
  | it :: rest =>
    let e : Int :=
      match rest with
      | [] => total_pages
      | nxt :: _ => nxt.page - 1
    (if it.page ≤ e then [bookmarkChapter it e] else []) ++
      rangeResolverSpec total_pages rest

/-- The whole-document fallback chapter of `ChapterDetector.detect`:
`Chapter(title="Complete Document", start_page=1, end_page=total_pages,
detection_method="fallback", confidence=1.0)`. -/
def completeDocumentChapter (total_pages : Int) : Chapter :=
  { title := ("Complete Document".toList), start_page := 1,
    end_page := total_pages, detection_method := ("fallback".toList),
    confidence := 1 }

/-! # Theorems -/

/-- **C10** — A sensitivity string outside `{"low", "medium", "high"}` raises
no error: the PDF detector's `_set_thresholds` silently lands on the medium
thresholds `(font_size_ratio, min_confidence) = (1.3, 0.6)` and the EPUB
structural detector's heading-tag table silently lands on the medium tag set
`["h1", "h2"]` (both `.get(...)` calls carry the medium default, and
construction performs no validation). -/
theorem C10_unknown_sensitivity_defaults_to_medium (s : Str)
    (h1 : s ≠ ("low".toList)) (h2 : s ≠ ("medium".toList))
    (h3 : s ≠ ("high".toList)) :
    set_thresholds s = (1.3, 0.6) ∧ heading_tags s = [("h1".toList), ("h2".toList)] := by
  constructor
  · simp only [set_thresholds, if_neg h1, if_neg h2, if_neg h3]
  · simp only [heading_tags, if_neg h1, if_neg h2, if_neg h3]

/-- **C10 witness** — the concrete sensitivity `"banana"`. -/
theorem C10_unknown_sensitivity_defaults_to_medium_witness :
    set_thresholds ("banana".toList) = (1.3, 0.6) ∧
      heading_tags ("banana".toList) = [("h1".toList), ("h2".toList)] :=
  C10_unknown_sensitivity_defaults_to_medium ("banana".toList)
    (by decide) (by decide) (by decide)

/-- **C7 counterexample** — the claim "every detect and split call releases
the source document handle on every exit path, including exceptional ones"
fails on the code: `doc.close()` is the last plain statement of
`ChapterDetector.detect`, with no `try`/`finally`, so an execution in which
an internal detection step raises terminates with the handle still open. -/
theorem C7_counterexample :
    (detectWithHandle [] [] ("medium".toList) ("hybrid".toList) 1 true).2 = true ∧
      (splitWithHandle (("{index:02d}_".toList) ++ ("{title}.pdf".toList)) [] true).2 = true := by
  constructor <;> rfl

/-- **C7 (amended)** — on every non-exceptional execution of
`ChapterDetector.detect` and `PDFSplitter.split` the trailing `doc.close()`
runs and the handle is released; an execution in which an internal step
raises terminates (exceptionally) with the handle still open. -/
theorem C7_handle_closed_iff_no_exception (pages : List Page)
    (toc : List TocEntry) (sensitivity strategy : Str) (bookmark_level : Int)
    (pattern : Str) (chapters : List Chapter) (raises : Bool) :
    (detectWithHandle pages toc sensitivity strategy bookmark_level raises).2 = raises ∧
      (splitWithHandle pattern chapters raises).2 = raises := by
  cases raises <;> exact ⟨rfl, rfl⟩

theorem pyReplaceChar_eq_self {s : Str} {a b : Char} (h : ∀ c ∈ s, c ≠ a) :
    pyReplaceChar s a b = s := by
  unfold pyReplaceChar
  conv_rhs => rw [← List.map_id s]
  refine List.map_congr_left fun x hx => ?_
  have := h x hx
  simp [this]

theorem foldl_replace_eq_self : ∀ (chars : List Char) (s : Str),
    (∀ c ∈ s, c ∉ chars) →
    chars.foldl (fun acc ch => pyReplaceChar acc ch '_') s = s := by
  intro chars
  induction chars with
  | nil => intro s _; rfl
  | cons a as ih =>
    intro s h
    simp only [List.foldl_cons]
    rw [pyReplaceChar_eq_self fun c hc hce =>
      h c hc (hce ▸ List.mem_cons_self a as)]
    exact ih s fun c hc hmem => h c hc (List.mem_cons_of_mem _ hmem)

theorem mem_pyReplaceChar {s : Str} {a b c : Char}
    (h : c ∈ pyReplaceChar s a b) : c = b ∨ (c ∈ s ∧ c ≠ a) := by
  unfold pyReplaceChar at h
  rw [List.mem_map] at h
  obtain ⟨x, hx, hxe⟩ := h
  by_cases hxa : x = a
  · left; rw [← hxe, if_pos (by simp [hxa])]
  · right
    rw [← hxe, if_neg (by simp [hxa])]
    exact ⟨hx, hxa⟩

theorem mem_foldl_replace : ∀ (chars : List Char) (s : Str), '_' ∉ chars →
    ∀ c ∈ chars.foldl (fun acc ch => pyReplaceChar acc ch '_') s,
      (c ∈ s ∨ c = '_') ∧ c ∉ chars := by
  intro chars
  induction chars with
  | nil =>
    intro s _ c hc
    exact ⟨Or.inl hc, by simp⟩
  | cons a as ih =>
    intro s hu c hc
    simp only [List.foldl_cons] at hc
    have hu' : '_' ∉ as := fun h => hu (List.mem_cons_of_mem _ h)
    have ha : a ≠ '_' := fun h => hu (h ▸ List.mem_cons_self a as)
    obtain ⟨h1, h2⟩ := ih (pyReplaceChar s a '_') hu' c hc
    have hmain : (c ∈ s ∨ c = '_') ∧ c ≠ a := by
      rcases h1 with h1 | h1
      · rcases mem_pyReplaceChar h1 with h | ⟨hcs, hca⟩
        · exact ⟨Or.inr h, h ▸ (Ne.symm ha)⟩
        · exact ⟨Or.inl hcs, hca⟩
      · exact ⟨Or.inr h1, h1 ▸ (Ne.symm ha)⟩
    refine ⟨hmain.1, fun hmem => ?_⟩
    rcases List.mem_cons.mp hmem with rfl | hmem
    · exact hmain.2 rfl
    · exact h2 hmem

/-- Characters of the collapsed string are underscores or non-separator
characters of the input. -/
theorem mem_collapseSeps : ∀ s : Str, ∀ c ∈ collapseSeps s, c = '_' ∨ (c ∈ s ∧ isSep c = false) := by
  intro s
  induction s using collapseSeps.induct with
  | case1 => intro c hc; simp [collapseSeps] at hc
  | case2 c hsep =>
    intro d hd
    rw [collapseSeps, if_pos hsep] at hd
    rcases List.mem_singleton.mp hd with rfl
    exact Or.inl rfl
  | case3 c hsep =>
    intro d hd
    rw [collapseSeps, if_neg hsep] at hd
    rcases List.mem_singleton.mp hd with rfl
    exact Or.inr ⟨List.mem_singleton_self _, by simpa using hsep⟩
  | case4 c d rest hcd ih =>
    intro e he
    rw [collapseSeps, if_pos hcd] at he
    rcases ih e he with h | ⟨hmem, hns⟩
    · exact Or.inl h
    · exact Or.inr ⟨List.mem_cons_of_mem _ hmem, hns⟩
  | case5 c d rest hcd ih =>
    intro e he
    rw [collapseSeps, if_neg hcd] at he
    rcases List.mem_cons.mp he with rfl | he
    · by_cases hc : isSep c = true
      · rw [if_pos hc]; exact Or.inl rfl
      · rw [if_neg hc]
        exact Or.inr ⟨List.mem_cons_self _ _, by simpa using hc⟩
    · rcases ih e he with h | ⟨hmem, hns⟩
      · exact Or.inl h
      · exact Or.inr ⟨List.mem_cons_of_mem _ hmem, hns⟩

/-- If `dropWhile` exposes a head, that head fails the predicate. -/
theorem dropWhile_head_false : ∀ {l : List Char} {p : Char → Bool} {d : Char}
    {ds : List Char}, List.dropWhile p l = d :: ds → p d = false := by
  intro l
  induction l with
  | nil => intro p d ds h; cases h
  | cons a as ih =>
    intro p d ds h
    rw [List.dropWhile_cons] at h
    by_cases hp : p a
    · rw [if_pos hp] at h; exact ih h
    · rw [if_neg hp] at h
      cases h
      simpa using hp

/-- The head the collapse of a non-separator-headed string exposes. -/
theorem collapseSeps_head_nonsep {d : Char} {rest : Str} (h : isSep d = false) :
    (collapseSeps (d :: rest)).head? = some d := by
  cases rest with
  | nil =>
    rw [collapseSeps, if_neg (by simp [h])]
    rfl
  | cons e es =>
    rw [collapseSeps, if_neg (by simp [h]), if_neg (by simp [h])]
    rfl

/-- No two adjacent separator characters survive collapsing. -/
theorem chain_collapseSeps : ∀ s : Str,
    (collapseSeps s).Chain' (fun a b => ¬(isSep a = true ∧ isSep b = true)) := by
  intro s
  induction s using collapseSeps.induct with
  | case1 => simp [collapseSeps]
  | case2 c hsep => rw [collapseSeps, if_pos hsep]; exact List.chain'_singleton _
  | case3 c hsep => rw [collapseSeps, if_neg hsep]; exact List.chain'_singleton _
  | case4 c d rest hcd ih => rw [collapseSeps, if_pos hcd]; exact ih
  | case5 c d rest hcd ih =>
    rw [collapseSeps, if_neg hcd, List.chain'_cons']
    refine ⟨fun y hy => ?_, ih⟩
    rintro ⟨hx, hysep⟩
    by_cases hc : isSep c = true
    · -- the emitted character is '_', but then `d` is not a separator,
      -- and `d` is the head the recursive collapse exposes
      have hd : isSep d = false := by
        cases h : isSep d
        · rfl
        · exact absurd (by simp [hc, h]) hcd
      rw [collapseSeps_head_nonsep hd, Option.mem_def, Option.some.injEq] at hy
      rw [← hy, hd] at hysep
      cases hysep
    · rw [if_neg hc] at hx
      exact hc hx

/-- Collapsing is the identity on strings with no whitespace and no two
adjacent separators. -/
theorem collapseSeps_eq_self : ∀ s : Str,
    (∀ c ∈ s, isPySpace c = false) →
    s.Chain' (fun a b => ¬(isSep a = true ∧ isSep b = true)) →
    collapseSeps s = s := by
  intro s
  induction s using collapseSeps.induct with
  | case1 => intro _ _; rfl
  | case2 c hsep =>
    intro hws _
    rw [collapseSeps, if_pos hsep]
    have hns := hws c (List.mem_singleton_self _)
    simp only [isSep, Bool.or_eq_true, beq_iff_eq] at hsep
    rcases hsep with h | h
    · rw [hns] at h; cases h
    · rw [h]
  | case3 c hsep =>
    intro _ _
    rw [collapseSeps, if_neg hsep]
  | case4 c d rest hcd ih =>
    intro hws hch
    rw [List.chain'_cons] at hch
    rcases Bool.and_eq_true_iff.mp hcd with ⟨hc, hd⟩
    exact absurd ⟨hc, hd⟩ hch.1
  | case5 c d rest hcd ih =>
    intro hws hch
    rw [List.chain'_cons] at hch
    rw [collapseSeps, if_neg hcd]
    have htail := ih (fun e he => hws e (List.mem_cons_of_mem _ he)) hch.2
    rw [htail]
    by_cases hc : isSep c = true
    · have hns := hws c (List.mem_cons_self _ _)
      simp only [isSep, Bool.or_eq_true, beq_iff_eq] at hc
      rcases hc with h | h
      · rw [hns] at h; cases h
      · rw [if_pos (by simp [isSep, h]), h]
    · rw [if_neg hc]

theorem prefix_head? {l₁ l₂ : Str} (hp : l₁ <+: l₂) {c : Char}
    (h : l₁.head? = some c) : l₂.head? = some c := by
  obtain ⟨t, rfl⟩ := hp
  cases l₁ with
  | nil => cases h
  | cons d ds => simpa using h

theorem stripUnderscores_head {s : Str} {c : Char}
    (h : (stripUnderscores s).head? = some c) : (c == '_') = false := by
  unfold stripUnderscores at h
  have hp := List.rdropWhile_prefix (· == '_') (s.dropWhile (· == '_'))
  have h2 := prefix_head? hp h
  cases hdw : s.dropWhile (· == '_') with
  | nil => rw [hdw] at h2; cases h2
  | cons d ds =>
    rw [hdw, List.head?_cons, Option.some.injEq] at h2
    have h3 := dropWhile_head_false hdw
    rw [← h2]
    exact h3

theorem chain'_of_append_left {R : Char → Char → Prop} {l₁ l₂ : Str}
    (h : List.Chain' R (l₁ ++ l₂)) : List.Chain' R l₁ :=
  (List.chain'_append.mp h).1

/-- A string that is already in sanitized shape is a fixed point of
`sanitize_filename`. -/
theorem sanitize_fixpoint {y : Str} {maxLength : Nat}
    (hws : ∀ c ∈ y, isPySpace c = false)
    (hinv : ∀ c ∈ y, c ∉ invalidChars)
    (hch : NoAdjSeps y)
    (hhead : ∀ c, y.head? = some c → (c == '_') = false)
    (hlast : ∀ hne : y ≠ [], (y.getLast hne == '_') = false)
    (hlen : y.length ≤ maxLength) (hne : y ≠ []) :
    sanitize_filename y maxLength = y := by
  have e1 : replaceInvalid y = y := foldl_replace_eq_self invalidChars y hinv
  have e2 : collapseSeps y = y := collapseSeps_eq_self y hws hch
  have e3 : stripUnderscores y = y := by
    unfold stripUnderscores
    have hd : y.dropWhile (· == '_') = y := by
      rw [List.dropWhile_eq_self_iff]
      intro hl
      cases y with
      | nil => cases hne rfl
      | cons d ds =>
        have := hhead d (by simp)
        simpa using this
    rw [hd, List.rdropWhile_eq_self_iff]
    intro hl
    simpa using hlast hl
  have e4 : truncateTitle y maxLength = y := by
    unfold truncateTitle
    rw [if_neg (not_lt.mpr hlen)]
  have hshape : sanitize_filename y maxLength =
      (if truncateTitle (stripUnderscores (collapseSeps (replaceInvalid y))) maxLength = []
       then ("untitled".toList)
       else truncateTitle (stripUnderscores (collapseSeps (replaceInvalid y))) maxLength) := rfl
  rw [hshape, e1, e2, e3, e4, if_neg hne]

set_option maxHeartbeats 1000000 in
/-- **C9 (amended)** — sanitization is idempotent for every maximum length of
at least 8 (the length of the `"untitled"` fallback); in particular for the
default `max_length = 100` used by both splitters. -/
theorem sanitize_filename_idempotent (title : Str) (maxLength : Nat)
    (h8 : 8 ≤ maxLength) :
    sanitize_filename (sanitize_filename title maxLength) maxLength =
      sanitize_filename title maxLength := by
  set t2 := collapseSeps (replaceInvalid title) with ht2
  set t3 := stripUnderscores t2 with ht3
  set t4 := truncateTitle t3 maxLength with ht4
  have hy : sanitize_filename title maxLength =
      (if t4 = [] then ("untitled".toList) else t4) := rfl
  by_cases hemp : t4 = []
  · rw [hy, if_pos hemp]
    refine sanitize_fixpoint ?_ ?_ ?_ ?_ ?_ ?_ (by decide)
    · intro c hc; revert c hc; decide
    · intro c hc; revert c hc; decide
    · unfold NoAdjSeps
      rw [List.chain'_iff_get]
      decide
    · intro c hc
      rw [show (("untitled".toList).head? = some 'u') from rfl,
        Option.some.injEq] at hc
      rw [← hc]
      decide
    · intro hne; exact rfl
    · rw [show ("untitled".toList).length = 8 from rfl]; omega
  · rw [hy, if_neg hemp]
    have h2mem : ∀ c ∈ t2, isPySpace c = false ∧ c ∉ invalidChars := by
      intro c hc
      rcases mem_collapseSeps _ c hc with rfl | ⟨hmem, hns⟩
      · exact ⟨by decide, by decide⟩
      · exact ⟨(Bool.or_eq_false_iff.mp hns).1,
          (mem_foldl_replace invalidChars title (by decide) c hmem).2⟩
    have h34 : t4 <+: t3 := by
      rw [ht4]
      unfold truncateTitle
      by_cases hlen : maxLength < t3.length
      · rw [if_pos hlen]
        exact (List.rdropWhile_prefix _ _).trans ( List.take_prefix _ _)
      · rw [if_neg hlen]
    have h3sub : t3.Sublist t2 := by
      rw [ht3]
      unfold stripUnderscores
      exact (List.rdropWhile_prefix _ _).sublist.trans (List.dropWhile_suffix _).sublist
    have h4sub := h34.sublist.trans h3sub
    have h3ch : NoAdjSeps t3 := by
      rw [ht3]
      unfold NoAdjSeps stripUnderscores
      obtain ⟨t, ht⟩ := List.rdropWhile_prefix (· == '_') (t2.dropWhile (· == '_'))
      have hbig : (List.rdropWhile (· == '_') (t2.dropWhile (· == '_')) ++ t).Chain'
          (fun a b => ¬(isSep a = true ∧ isSep b = true)) := by
        rw [ht]
        refine List.Chain'.suffix ?_ (List.dropWhile_suffix _)
        rw [ht2]
        exact chain_collapseSeps _
      exact chain'_of_append_left hbig
    have h4ch : NoAdjSeps t4 := by
      obtain ⟨t, ht⟩ := h34
      rw [← ht] at h3ch
      unfold NoAdjSeps at h3ch ⊢
      exact chain'_of_append_left h3ch
    have h4head : ∀ c, t4.head? = some c → (c == '_') = false := by
      intro c hc
      have := prefix_head? h34 hc
      rw [ht3] at this
      exact stripUnderscores_head this
    have h4last : ∀ hne : t4 ≠ [], (t4.getLast hne == '_') = false := by
      rw [ht4]
      unfold truncateTitle
      by_cases hlen : maxLength < t3.length
      · rw [if_pos hlen]
        intro hne
        have := List.rdropWhile_last_not (· == '_') (t3.take maxLength) hne
        simpa using this
      · rw [if_neg hlen]
        rw [ht3]
        unfold stripUnderscores
        intro hne
        have := List.rdropWhile_last_not (· == '_') (t2.dropWhile (· == '_')) hne
        simpa using this
    have h4len : t4.length ≤ maxLength := by
      rw [ht4]
      unfold truncateTitle
      by_cases hlen : maxLength < t3.length
      · rw [if_pos hlen]
        refine le_trans (List.rdropWhile_prefix _ _).sublist.length_le ?_
        simp
      · rw [if_neg hlen]
        omega
    exact sanitize_fixpoint
      (fun c hc => (h2mem c (h4sub.subset hc)).1)
      (fun c hc => (h2mem c (h4sub.subset hc)).2)
      h4ch h4head h4last h4len hemp

/-- **C9 counterexample** — idempotence fails for small maximum lengths: with
`max_length = 3`, the empty title sanitizes to the fallback `"untitled"`
(length checks run before the fallback is substituted), but sanitizing
`"untitled"` at `max_length = 3` truncates it to `"unt"`. -/
theorem C9_counterexample :
    sanitize_filename (sanitize_filename [] 3) 3 ≠ sanitize_filename [] 3 := by
  decide

/-- **C9 witness** — the amended idempotence applied at the concrete title
`"Chapter 1: Intro"` and the default maximum length 100. -/
theorem C9_witness :
    8 ≤ 100 ∧
      sanitize_filename (sanitize_filename ("Chapter 1: Intro".toList) 100) 100 =
        sanitize_filename ("Chapter 1: Intro".toList) 100 :=
  ⟨by omega, sanitize_filename_idempotent ("Chapter 1: Intro".toList) 100 (by omega)⟩


/-- The conditional `pyMin` is the lattice `min`. -/
theorem pyMin_eq (a b : ℚ) : pyMin a b = min a b := by
  unfold pyMin
  rw [min_def]

/-- The conditional `pyMax` is the lattice `max`. -/
theorem pyMax_eq (a b : ℚ) : pyMax a b = max a b := by
  unfold pyMax
  rw [max_def]
  rcases le_total a b with h | h
  · rcases eq_or_lt_of_le h with rfl | hlt
    · simp
    · rw [if_pos h, if_neg (not_le.mpr hlt)]
  · rw [if_pos h]
    by_cases hba : a ≤ b
    · rw [if_pos hba]
      exact le_antisymm (hba.trans (le_refl b)) h |>.symm ▸ rfl
    · rw [if_neg hba]

/-- A candidate emitted by the per-line span scan carries the page number
`page_num + 1` and a confidence that passed the `min_confidence` gate. -/
theorem scanLine_some {font_size_ratio min_confidence : ℚ}
    {all_blocks : List Block} {page_num : Nat} {spans : List Span}
    {x : Nat × Str × ℚ}
    (h : scanLine font_size_ratio min_confidence all_blocks page_num spans = some x) :
    x.1 = page_num + 1 ∧ min_confidence ≤ x.2.2 := by
  unfold scanLine at h
  cases hfind : spans.find? (fun sp =>
      !(pyStrip sp.text).isEmpty &&
        is_potential_heading font_size_ratio (pyStrip sp.text) sp.size all_blocks) with
  | none => rw [hfind] at h; cases h
  | some sp =>
    simp only [hfind] at h
    by_cases hconf : calculate_confidence (pyStrip sp.text) sp.size ≥ min_confidence
    · rw [if_pos hconf] at h
      cases h
      exact ⟨rfl, hconf⟩
    · rw [if_neg hconf] at h
      cases h

/-- **C5** — the heuristic confidence score is exactly
`clamp(0.5 + 0.4·[pattern] + sizeBonus − lengthPenalty)` with size bonus
`0.1` for `size ≥ 16` and `0.05` for `size ∈ [14,16)`, and penalty `0.2` for
more than 10 words and `0.1` for word count in `(6,10]`; a candidate enters
the potential-chapter list only when the score reaches `min_confidence`; and
`"Chapter 1: Introduction"` at size 16 scores at least `0.8`. -/
theorem C5_confidence_formula :
    (∀ (text : Str) (font_size : ℚ),
       calculate_confidence text font_size =
         min 1 (max 0 ((0.5 : ℚ)
           + (if matchesChapterPattern text then (0.4 : ℚ) else 0)
           + (if 16 ≤ font_size then (0.1 : ℚ)
              else if 14 ≤ font_size ∧ font_size < 16 then 0.05 else 0)
           - (if 10 < wordCount text then (0.2 : ℚ)
              else if 6 < wordCount text ∧ wordCount text ≤ 10 then 0.1 else 0)))) ∧
    (∀ (font_size_ratio min_confidence : ℚ) (pages : List Page)
       (x : Nat × Str × ℚ),
       x ∈ potential_chapters font_size_ratio min_confidence pages →
       min_confidence ≤ x.2.2) ∧
    (0.8 : ℚ) ≤ calculate_confidence ("Chapter 1: Introduction".toList) 16 := by
  have hformula : ∀ (text : Str) (font_size : ℚ),
      calculate_confidence text font_size =
        min 1 (max 0 ((0.5 : ℚ)
          + (if matchesChapterPattern text then (0.4 : ℚ) else 0)
          + (if 16 ≤ font_size then (0.1 : ℚ)
             else if 14 ≤ font_size ∧ font_size < 16 then 0.05 else 0)
          - (if 10 < wordCount text then (0.2 : ℚ)
             else if 6 < wordCount text ∧ wordCount text ≤ 10 then 0.1 else 0))) := by
    intro text font_size
    have hsize : (if 16 ≤ font_size then (0.1 : ℚ)
          else if 14 ≤ font_size ∧ font_size < 16 then 0.05 else 0)
        = (if font_size ≥ 16 then (0.1 : ℚ)
           else if font_size ≥ 14 then 0.05 else 0) := by
      by_cases h16 : font_size ≥ 16
      · rw [if_pos h16, if_pos h16]
      · rw [if_neg h16, if_neg h16]
        by_cases h14 : font_size ≥ 14
        · rw [if_pos h14, if_pos ⟨h14, lt_of_not_ge h16⟩]
        · rw [if_neg h14, if_neg (fun hand => h14 hand.1)]
    have hwc : (if 10 < wordCount text then (0.2 : ℚ)
          else if 6 < wordCount text ∧ wordCount text ≤ 10 then 0.1 else 0)
        = (if wordCount text > 10 then (0.2 : ℚ)
           else if wordCount text > 6 then 0.1 else 0) := by
      by_cases h10 : wordCount text > 10
      · rw [if_pos h10, if_pos h10]
      · rw [if_neg h10, if_neg h10]
        by_cases h6 : wordCount text > 6
        · rw [if_pos h6, if_pos ⟨h6, by omega⟩]
        · rw [if_neg h6, if_neg (fun hand => h6 hand.1)]
    rw [hsize, hwc]
    simp only [calculate_confidence]
    rw [pyMin_eq, pyMax_eq]
    split_ifs <;> ring_nf
  refine ⟨hformula, ?_, ?_⟩
  · intro font_size_ratio min_confidence pages x hx
    unfold potential_chapters at hx
    rw [List.mem_flatMap] at hx
    obtain ⟨pb, _, hx⟩ := hx
    rw [List.mem_flatMap] at hx
    obtain ⟨b, _, hx⟩ := hx
    rw [List.mem_filterMap] at hx
    obtain ⟨ln, _, heq⟩ := hx
    exact (scanLine_some heq).2
  · have hm : matchesChapterPattern ("Chapter 1: Introduction".toList) = true := by decide
    have hw : wordCount ("Chapter 1: Introduction".toList) = 3 := by decide
    rw [hformula, hm, hw]
    norm_num


/-- The index-based chapter-building loop over the filtered outline entries
computes exactly the spec-side recursive range resolution. -/
theorem filterMap_bookmarkChapterAt_eq :
    ∀ (items : List TocEntry) (total_pages : Int),
      (List.range items.length).filterMap (bookmarkChapterAt items total_pages) =
        rangeResolverSpec total_pages items := by
  intro items
  induction items with
  | nil => intro N; rfl
  | cons it rest ih =>
    intro N
    have hlen : (it :: rest).length = rest.length + 1 := rfl
    rw [hlen, List.range_succ_eq_map, List.filterMap_cons, List.filterMap_map]
    have hcomp : bookmarkChapterAt (it :: rest) N ∘ Nat.succ =
        bookmarkChapterAt rest N := funext fun i => rfl
    rw [hcomp, ih N]
    cases rest with
    | nil =>
      simp only [rangeResolverSpec, bookmarkChapterAt, List.get?]
      by_cases hp : it.page ≤ N
      · rw [if_pos hp, if_pos hp]
        rfl
      · rw [if_neg hp, if_neg hp]
        rfl
    | cons nxt rest2 =>
      simp only [rangeResolverSpec, bookmarkChapterAt, List.get?]
      by_cases hp : it.page ≤ nxt.page - 1
      · rw [if_pos hp, if_pos hp]
        rfl
      · rw [if_neg hp, if_neg hp]
        rfl

/-- **C4** — bookmark/outline detection at one hierarchy level assigns entry
`i` the range from its own page to one page before entry `i + 1`'s page, the
last entry the range up to the document end, and drops any entry whose
resulting range has `start > end`; concretely, a flat outline at pages
1, 10, 25 of a 30-page document at level 1 yields exactly the ranges
`[1, 9]`, `[10, 24]`, `[25, 30]`. -/
theorem C4_bookmark_range_resolution :
    (∀ (toc : List TocEntry) (total_pages : Int) (bookmark_level : Int),
       detect_from_bookmarks toc total_pages bookmark_level =
         rangeResolverSpec total_pages
           (toc.filter (fun it => it.level == bookmark_level))) ∧
    detect_from_bookmarks
        [⟨1, ("Intro".toList), 1⟩, ⟨1, ("Middle".toList), 10⟩,
         ⟨1, ("End".toList), 25⟩] 30 1 =
      [⟨("Intro".toList), 1, 9, 1, ("bookmark".toList), 1⟩,
       ⟨("Middle".toList), 10, 24, 1, ("bookmark".toList), 1⟩,
       ⟨("End".toList), 25, 30, 1, ("bookmark".toList), 1⟩] := by
  constructor
  · intro toc total_pages bookmark_level
    unfold detect_from_bookmarks
    by_cases hemp : toc.isEmpty
    · rw [if_pos hemp]
      have : toc = [] := List.isEmpty_iff.mp hemp
      subst this
      rfl
    · rw [if_neg hemp]
      exact filterMap_bookmarkChapterAt_eq _ _
  · decide


/-- What a successful bookmark-loop body yields: the chapter starts at entry
`i`'s page, ends at the resolved end (next entry's page minus one, or the
document end), and satisfies `start_page ≤ end_page`. -/
theorem bookmarkChapterAt_some {items : List TocEntry} {total_pages : Int}
    {i : Nat} {ch : Chapter}
    (h : bookmarkChapterAt items total_pages i = some ch) :
    ∃ it, items.get? i = some it ∧ ch.start_page = it.page ∧
      ch.start_page ≤ ch.end_page ∧
      (∀ nxt, items.get? (i + 1) = some nxt → ch.end_page = nxt.page - 1) ∧
      (items.get? (i + 1) = none → ch.end_page = total_pages) := by
  unfold bookmarkChapterAt at h
  rcases h1 : items.get? i with _ | it
  · rw [h1] at h; cases h
  · simp only [h1] at h
    by_cases hcond : it.page ≤ (match items.get? (i + 1) with
        | some nxt => nxt.page - 1
        | none => total_pages)
    · rw [if_pos hcond] at h
      cases h
      refine ⟨it, rfl, rfl, hcond, ?_, ?_⟩
      · intro nxt h2
        rw [h2]
      · intro h2
        rw [h2]
    · rw [if_neg hcond] at h
      cases h

/-- What a successful heuristic-loop body yields. -/
theorem heuristicChapterAt_some {pcs : List (Nat × Str × ℚ)} {total_pages : Int}
    {i : Nat} {ch : Chapter}
    (h : heuristicChapterAt pcs total_pages i = some ch) :
    ∃ pc, pcs.get? i = some pc ∧ ch.start_page = (pc.1 : Int) ∧
      (∀ nxt, pcs.get? (i + 1) = some nxt → ch.end_page = ((nxt.1 : Int)) - 1) ∧
      (pcs.get? (i + 1) = none → ch.end_page = total_pages) := by
  unfold heuristicChapterAt at h
  rcases h1 : pcs.get? i with _ | pc
  · rw [h1] at h; cases h
  · rw [h1] at h
    simp only [Option.map_some'] at h
    cases h
    refine ⟨pc, rfl, rfl, ?_, ?_⟩
    · intro nxt h2
      rw [h2]
    · intro h2
      rw [h2]

/-- Every candidate page of the heuristic scan lies in `[1, total pages]`. -/
theorem potential_chapters_page_bounds {font_size_ratio min_confidence : ℚ}
    {pages : List Page} {x : Nat × Str × ℚ}
    (hx : x ∈ potential_chapters font_size_ratio min_confidence pages) :
    1 ≤ x.1 ∧ x.1 ≤ pages.length := by
  unfold potential_chapters at hx
  rw [List.mem_flatMap] at hx
  obtain ⟨pb, hpb, hx⟩ := hx
  rw [List.mem_flatMap] at hx
  obtain ⟨b, _, hx⟩ := hx
  rw [List.mem_filterMap] at hx
  obtain ⟨ln, _, heq⟩ := hx
  have h1 := (scanLine_some heq).1
  have h2 := List.fst_lt_of_mem_enum hpb
  omega

/-- Indexing form of a strictly-increasing-positions hypothesis. -/
theorem pairwise_map_lt {α : Type} (f : α → Int) {l : List α}
    (h : (l.map f).Pairwise (· < ·)) {i j : Nat} (hij : i < j)
    {a b : α} (ha : l.get? i = some a) (hb : l.get? j = some b) :
    f a < f b := by
  rw [List.pairwise_iff_getElem] at h
  obtain ⟨hi, ha2⟩ := List.get?_eq_some.mp ha
  obtain ⟨hj, hb2⟩ := List.get?_eq_some.mp hb
  have hfl := h i j (by simpa using hi) (by simpa using hj) hij
  simp only [List.getElem_map] at hfl
  rw [List.get_eq_getElem] at ha2 hb2
  rw [ha2, hb2] at hfl
  exact hfl


/-- **C2 counterexample** — with the heuristic strategy and a single page
carrying two accepted chapter headings, the first emitted chapter gets the
range `[1, 0]`: `start_page > end_page`, because `_detect_from_heuristics`
(unlike the bookmark path) never drops degenerate ranges. -/
theorem C2_counterexample :
    ∃ ch ∈ (detect
        [[⟨0, [⟨[⟨("Chapter 1".toList), 12⟩]⟩, ⟨[⟨("Chapter 2".toList), 12⟩]⟩]⟩]]
        [] ("medium".toList) ("heuristic".toList) 1).chapters,
      ch.end_page < ch.start_page := by
  with_unfolding_all decide

/-- **C2 (amended)** — every bookmark-detected chapter satisfies
`start_page ≤ end_page`, and when the underlying positions are strictly
increasing (level-filtered outline pages, or accepted heading pages) the
resulting chapter sequence is ordered by position ascending and pairwise
non-overlapping; the heuristic path, however, emits chapters with
`start_page > end_page` when two headings are accepted at the same position
(see the counterexample), so its `start ≤ end` guarantee needs the
strict-increase hypothesis. -/
theorem C2_ordered_nonoverlapping :
    (∀ (toc : List TocEntry) (total_pages : Int) (bookmark_level : Int),
       (∀ ch ∈ detect_from_bookmarks toc total_pages bookmark_level,
          ch.start_page ≤ ch.end_page) ∧
       (((toc.filter (fun it => it.level == bookmark_level)).map
           TocEntry.page).Pairwise (· < ·) →
        (detect_from_bookmarks toc total_pages bookmark_level).Pairwise
          (fun a b => a.end_page < b.start_page))) ∧
    (∀ (font_size_ratio min_confidence : ℚ) (pages : List Page),
       ((potential_chapters font_size_ratio min_confidence pages).map
           (fun pc => (pc.1 : Int))).Pairwise (· < ·) →
       (detect_from_heuristics font_size_ratio min_confidence pages).Pairwise
           (fun a b => a.end_page < b.start_page) ∧
        ∀ ch ∈ detect_from_heuristics font_size_ratio min_confidence pages,
          ch.start_page ≤ ch.end_page) := by
  constructor
  · intro toc total_pages bookmark_level
    constructor
    · intro ch hch
      unfold detect_from_bookmarks at hch
      by_cases hemp : toc.isEmpty
      · rw [if_pos hemp] at hch
        cases hch
      · rw [if_neg hemp] at hch
        rw [List.mem_filterMap] at hch
        obtain ⟨i, _, heq⟩ := hch
        obtain ⟨it, _, _, hle, _, _⟩ := bookmarkChapterAt_some heq
        exact hle
    · intro hmono
      unfold detect_from_bookmarks
      by_cases hemp : toc.isEmpty
      · rw [if_pos hemp]
        exact List.Pairwise.nil
      · rw [if_neg hemp]
        refine List.Pairwise.filterMap _ ?_ (List.pairwise_lt_range _)
        intro i j hij ch hch ch2 hch2
        obtain ⟨it, h1, hs, _, heSome, _⟩ :=
          bookmarkChapterAt_some (Option.mem_def.mp hch)
        obtain ⟨jt, h1j, hsj, _, _, _⟩ :=
          bookmarkChapterAt_some (Option.mem_def.mp hch2)
        rcases h2 : (toc.filter (fun t => t.level == bookmark_level)).get? (i + 1)
            with _ | nt
        · have hlenj :=
            (List.get?_eq_some.mp h1j).1
          have := List.get?_eq_none.mp h2
          omega
        · have he := heSome nt h2
          rw [he, hsj]
          have hnext : i + 1 = j ∨ i + 1 < j := by omega
          rcases hnext with hnext | hnext
          · rw [hnext] at h2
            rw [h2] at h1j
            cases h1j
            omega
          · have := pairwise_map_lt TocEntry.page hmono hnext h2 h1j
            omega
  · intro font_size_ratio min_confidence pages hmono
    constructor
    · unfold detect_from_heuristics
      refine List.Pairwise.filterMap _ ?_ (List.pairwise_lt_range _)
      intro i j hij ch hch ch2 hch2
      obtain ⟨pc, h1, hs, heSome, _⟩ :=
        heuristicChapterAt_some (Option.mem_def.mp hch)
      obtain ⟨qc, h1j, hsj, _, _⟩ :=
        heuristicChapterAt_some (Option.mem_def.mp hch2)
      rcases h2 : (potential_chapters font_size_ratio min_confidence pages).get? (i + 1)
          with _ | nt
      · have hlenj := (List.get?_eq_some.mp h1j).1
        have := List.get?_eq_none.mp h2
        omega
      · have he := heSome nt h2
        rw [he, hsj]
        have hnext : i + 1 = j ∨ i + 1 < j := by omega
        rcases hnext with hnext | hnext
        · rw [hnext] at h2
          rw [h2] at h1j
          cases h1j
          omega
        · have := pairwise_map_lt (fun pc => ((pc.1 : Int))) hmono hnext h2 h1j
          simp only [] at this
          omega
    · intro ch hch
      unfold detect_from_heuristics at hch
      rw [List.mem_filterMap] at hch
      obtain ⟨i, _, heq⟩ := hch
      obtain ⟨pc, h1, hs, heSome, heNone⟩ := heuristicChapterAt_some heq
      rcases h2 : (potential_chapters font_size_ratio min_confidence pages).get? (i + 1)
          with _ | nt
      · have he := heNone h2
        -- last candidate: its page is at most the page count
        have hmem : pc ∈ potential_chapters font_size_ratio min_confidence pages := by
          obtain ⟨hlt, hget⟩ := List.get?_eq_some.mp h1
          rw [← hget]
          exact List.get_mem _ _ _
        have hb := (potential_chapters_page_bounds hmem).2
        rw [hs, he]
        omega
      · have he := heSome nt h2
        have := pairwise_map_lt (fun pc => ((pc.1 : Int))) hmono
          (Nat.lt_succ_self i) h1 h2
        simp only [] at this
        rw [hs, he]
        omega


/-- **C2 witness** — the amended ordering theorem applied to the concrete
sorted three-entry outline of a 30-page document. -/
theorem C2_ordered_nonoverlapping_witness :
    ((([⟨1, ("A".toList), 1⟩, ⟨1, ("B".toList), 10⟩,
        ⟨1, ("C".toList), 25⟩] : List TocEntry).filter
        (fun it => it.level == 1)).map TocEntry.page).Pairwise (· < ·) ∧
    (detect_from_bookmarks
        [⟨1, ("A".toList), 1⟩, ⟨1, ("B".toList), 10⟩,
         ⟨1, ("C".toList), 25⟩] 30 1).Pairwise
        (fun a b => a.end_page < b.start_page) :=
  ⟨by decide, (C2_ordered_nonoverlapping.1 _ 30 1).2 (by decide)⟩

/-- **C5 witness** — the acceptance bound applied to a concrete scan: a page
whose one span reads `"Chapter 1"` at size 12 yields the candidate
`(1, "Chapter 1", 0.9)`, whose confidence indeed reaches the medium
threshold `0.6`. -/
theorem C5_confidence_formula_witness :
    ((1, ("Chapter 1".toList), (0.9 : ℚ)) ∈
        potential_chapters 1.3 0.6 [[⟨0, [⟨[⟨("Chapter 1".toList), 12⟩]⟩]⟩]]) ∧
    (0.6 : ℚ) ≤ ((1, ("Chapter 1".toList), (0.9 : ℚ)) : Nat × Str × ℚ).2.2 :=
  ⟨by with_unfolding_all decide,
   C5_confidence_formula.2.1 1.3 0.6 [[⟨0, [⟨[⟨("Chapter 1".toList), 12⟩]⟩]⟩]]
     (1, ("Chapter 1".toList), (0.9 : ℚ)) (by with_unfolding_all decide)⟩


/-- **C6 counterexample** — the EPUB-to-PDF splitter silently skips a chapter
whose content unit does not resolve in the book (`if not main_item:
continue`), so it can create fewer output files than there are chapters. -/
theorem C6_counterexample :
    splitToPdf ("{index:02d}_".toList)
        ⟨[], [], [], []⟩ [{ title := ("A".toList), file_path := ("missing.xhtml".toList) }] = [] ∧
    ([{ title := ("A".toList), file_path := ("missing.xhtml".toList) }] : List EpubChapter).length = 1 := by
  exact ⟨rfl, rfl⟩

/-- `filterMap` of a body that keeps `f a` exactly when `g a` is `some` is a
`filter` followed by a `map`. -/
theorem filterMap_isSome_eq {α β γ : Type} (g : α → Option γ) (f : α → β) (l : List α) :
    l.filterMap (fun a => match g a with | none => none | some _ => some (f a)) =
      (l.filter (fun a => (g a).isSome)).map f := by
  induction l with
  | nil => rfl
  | cons a l ih =>
    rw [List.filterMap_cons, List.filter_cons]
    cases hg : g a
    · simp only [hg, Option.isSome_none, Bool.false_eq_true, if_false]
      rw [ih]
    · simp only [hg, Option.isSome_some, if_true]
      rw [List.map_cons, ih]

/-- **C6 (amended)** — the PDF splitter and the EPUB-to-EPUB splitter write
exactly one output file per chapter, in chapter order (output `i` is built
from chapter `i` with 1-based index `i + 1`); the EPUB-to-PDF splitter
instead writes one output per chapter whose `file_path` resolves to an item
of the book, in order, skipping the others. -/
theorem C6_one_output_per_chapter :
    (∀ (pattern : Str) (chapters : List Chapter) (i : Nat),
       (pdfSplit pattern chapters).length = chapters.length ∧
       (pdfSplit pattern chapters)[i]? =
         (chapters[i]?).map (fun ch => pdf_generate_filename pattern ch (i + 1))) ∧
    (∀ (pattern : Str) (book : EpubBook) (chapters : List EpubChapter) (i : Nat),
       (splitToEpub pattern book chapters).length = chapters.length ∧
       (splitToEpub pattern book chapters)[i]? =
         (chapters[i]?).map
           (fun ch => epub_generate_filename pattern ("epub".toList) ch (i + 1))) ∧
    (∀ (pattern : Str) (book : EpubBook) (chapters : List EpubChapter),
       splitToPdf pattern book chapters =
         (chapters.enum.filter
            (fun ic => (book.get_item_with_href ic.2.file_path).isSome)).map
           (fun ic => epub_generate_filename pattern ("pdf".toList) ic.2 (ic.1 + 1))) := by
  refine ⟨?_, ?_, ?_⟩
  · intro pattern chapters i
    constructor
    · unfold pdfSplit
      rw [List.length_map, List.enum_length]
    · unfold pdfSplit
      rw [List.getElem?_map, List.getElem?_enum]
      cases chapters[i]? <;> rfl
  · intro pattern book chapters i
    constructor
    · unfold splitToEpub
      rw [List.length_map, List.enum_length]
    · unfold splitToEpub
      rw [List.getElem?_map, List.getElem?_enum]
      cases chapters[i]? <;> rfl
  · intro pattern book chapters
    unfold splitToPdf
    convert filterMap_isSome_eq
      (fun ic => book.get_item_with_href ic.2.file_path)
      (fun ic => epub_generate_filename pattern ("pdf".toList) ic.2 (ic.1 + 1))
      chapters.enum using 2
    funext ic
    cases book.get_item_with_href ic.2.file_path <;> rfl


/-- Invariant of the set-accumulating reference walk: starting from a
duplicate-free accumulator, the result is duplicate-free and contains exactly
the accumulator plus every item some reference resolves to. -/
theorem resource_fold_invariant (book : EpubBook) (base_item : EpubItem) :
    ∀ (refs : List Str) (acc : List EpubItem), acc.Nodup →
      (refs.foldl (fun acc href =>
          match resolve_resource book base_item href with
          | some r => if r ∈ acc then acc else acc ++ [r]
          | none => acc) acc).Nodup ∧
      ∀ x, x ∈ refs.foldl (fun acc href =>
          match resolve_resource book base_item href with
          | some r => if r ∈ acc then acc else acc ++ [r]
          | none => acc) acc ↔
        (x ∈ acc ∨ ∃ href ∈ refs, resolve_resource book base_item href = some x) := by
  intro refs
  induction refs with
  | nil =>
    intro acc hacc
    refine ⟨hacc, fun x => ?_⟩
    simp
  | cons href rest ih =>
    intro acc hacc
    rw [List.foldl_cons]
    rcases hres : resolve_resource book base_item href with _ | r
    · simp only [hres]
      obtain ⟨hnd, hmem⟩ := ih acc hacc
      refine ⟨hnd, fun x => ?_⟩
      rw [hmem x]
      constructor
      · rintro (hx | ⟨h2, hh2, hr2⟩)
        · exact Or.inl hx
        · exact Or.inr ⟨h2, List.mem_cons_of_mem _ hh2, hr2⟩
      · rintro (hx | ⟨h2, hh2, hr2⟩)
        · exact Or.inl hx
        · rcases List.mem_cons.mp hh2 with rfl | hh2
          · rw [hres] at hr2; cases hr2
          · exact Or.inr ⟨h2, hh2, hr2⟩
    · simp only [hres]
      by_cases hmem0 : r ∈ acc
      · rw [if_pos hmem0]
        obtain ⟨hnd, hmem⟩ := ih acc hacc
        refine ⟨hnd, fun x => ?_⟩
        rw [hmem x]
        constructor
        · rintro (hx | ⟨h2, hh2, hr2⟩)
          · exact Or.inl hx
          · exact Or.inr ⟨h2, List.mem_cons_of_mem _ hh2, hr2⟩
        · rintro (hx | ⟨h2, hh2, hr2⟩)
          · exact Or.inl hx
          · rcases List.mem_cons.mp hh2 with rfl | hh2
            · rw [hres] at hr2
              cases hr2
              exact Or.inl hmem0
            · exact Or.inr ⟨h2, hh2, hr2⟩
      · rw [if_neg hmem0]
        have hacc2 : (acc ++ [r]).Nodup := by
          rw [List.nodup_append]
          refine ⟨hacc, List.nodup_singleton r, ?_⟩
          intro a ha hb
          rcases List.mem_singleton.mp hb with rfl
          exact hmem0 ha
        obtain ⟨hnd, hmem⟩ := ih (acc ++ [r]) hacc2
        refine ⟨hnd, fun x => ?_⟩
        rw [hmem x]
        constructor
        · rintro (hx | ⟨h2, hh2, hr2⟩)
          · rcases List.mem_append.mp hx with hx | hx
            · exact Or.inl hx
            · rcases List.mem_singleton.mp hx with rfl
              exact Or.inr ⟨href, List.mem_cons_self _ _, hres⟩
          · exact Or.inr ⟨h2, List.mem_cons_of_mem _ hh2, hr2⟩
        · rintro (hx | ⟨h2, hh2, hr2⟩)
          · exact Or.inl (List.mem_append.mpr (Or.inl hx))
          · rcases List.mem_cons.mp hh2 with rfl | hh2
            · rw [hres] at hr2
              cases hr2
              exact Or.inl (List.mem_append.mpr (Or.inr (List.mem_singleton_self _)))
            · exact Or.inr ⟨h2, hh2, hr2⟩

/-- **C8** — the resolved resource set of one content unit contains each
archive item at most once no matter how many references resolve to it
(membership is exactly "some stylesheet link, image source or inline-style
`url(...)` reference resolves to the item", with fragments stripped inside
`resolve_resource`), and a reference that resolves neither directly nor
relative to the unit directory is silently omitted; concretely, a stylesheet
and an image each referenced twice appear exactly once each, and a missing
reference contributes nothing. -/
theorem C8_resource_dedup_and_omission :
    (∀ (book : EpubBook) (base_item : EpubItem) (cssHrefs imgSrcs styleUrls : List Str),
       (find_referenced_resources book base_item cssHrefs imgSrcs styleUrls).Nodup ∧
       (∀ x, x ∈ find_referenced_resources book base_item cssHrefs imgSrcs styleUrls ↔
          (base_item.parse_fails = false ∧
           ∃ href ∈ cssHrefs ++ imgSrcs ++ styleUrls,
             resolve_resource book base_item href = some x))) ∧
    (find_referenced_resources
        ⟨[], [], [],
         [⟨("u".toList), ("OEBPS/ch1.xhtml".toList), 9, [], [], [], none, false⟩,
          ⟨("c".toList), ("OEBPS/style.css".toList), 2, [], [], [], none, false⟩,
          ⟨("m".toList), ("OEBPS/img/pic.png".toList), 1, [], [], [], none, false⟩]⟩
        ⟨("u".toList), ("OEBPS/ch1.xhtml".toList), 9, [], [], [], none, false⟩
        [("style.css".toList), ("style.css".toList)]
        [("img/pic.png".toList), ("img/pic.png#frag".toList), ("missing.png".toList)]
        [("style.css".toList)]).map EpubItem.name =
      [("OEBPS/style.css".toList), ("OEBPS/img/pic.png".toList)] := by
  constructor
  · intro book base_item cssHrefs imgSrcs styleUrls
    unfold find_referenced_resources
    by_cases hpf : base_item.parse_fails
    · rw [if_pos hpf]
      refine ⟨List.nodup_nil, fun x => ?_⟩
      simp [hpf]
    · rw [if_neg hpf]
      obtain ⟨hnd, hmem⟩ :=
        resource_fold_invariant book base_item (cssHrefs ++ imgSrcs ++ styleUrls) [] List.nodup_nil
      refine ⟨hnd, fun x => ?_⟩
      rw [hmem x]
      simp only [List.not_mem_nil, false_or]
      constructor
      · intro h
        exact ⟨by simpa using hpf, h⟩
      · intro h
        exact h.2
  · rfl


/-- Shape of `detect`'s final `if`/`else`: whatever the stages produced, the
result is never empty, and it is either the stage output under the requested
strategy name or the whole-document fallback. -/
theorem detect_final_shape (c2 : List Chapter) (strategy : Str) (tp : Int)
    (hb : Bool) :
    (if c2.isEmpty then
        ({ chapters := [completeDocumentChapter tp],
           strategy_used := ("fallback".toList), total_pages := tp,
           has_bookmarks := hb } : DetectionResult)
      else
        { chapters := c2, strategy_used := strategy, total_pages := tp,
          has_bookmarks := hb }).chapters ≠ [] ∧
    (((if c2.isEmpty then
        ({ chapters := [completeDocumentChapter tp],
           strategy_used := ("fallback".toList), total_pages := tp,
           has_bookmarks := hb } : DetectionResult)
      else
        { chapters := c2, strategy_used := strategy, total_pages := tp,
          has_bookmarks := hb }).strategy_used = strategy ∧ c2 ≠ []) ∨
     ((if c2.isEmpty then
        ({ chapters := [completeDocumentChapter tp],
           strategy_used := ("fallback".toList), total_pages := tp,
           has_bookmarks := hb } : DetectionResult)
      else
        { chapters := c2, strategy_used := strategy, total_pages := tp,
          has_bookmarks := hb }).strategy_used = ("fallback".toList) ∧
      (if c2.isEmpty then
        ({ chapters := [completeDocumentChapter tp],
           strategy_used := ("fallback".toList), total_pages := tp,
           has_bookmarks := hb } : DetectionResult)
      else
        { chapters := c2, strategy_used := strategy, total_pages := tp,
          has_bookmarks := hb }).chapters = [completeDocumentChapter tp])) := by
  by_cases h : c2.isEmpty
  · rw [if_pos h]
    exact ⟨by simp [completeDocumentChapter], Or.inr ⟨rfl, rfl⟩⟩
  · rw [if_neg h]
    have hne : c2 ≠ [] := fun hc => h (by rw [show c2 = [] from hc]; rfl)
    exact ⟨hne, Or.inl ⟨rfl, hne⟩⟩

/-- **C1 counterexample** — the EPUB detector has no whole-document
fallback: with the `native` strategy and a book without a TOC, `detect`
returns an empty chapter sequence. -/
theorem C1_counterexample :
    (epubDetect ("native".toList) ("medium".toList) 1
        ⟨[], [], [], []⟩).chapters = [] := rfl

/-- **C1 (amended)** — the PDF detector never returns an empty chapter
sequence: when neither the bookmark stage nor the heuristic stage yields any
chapter, it synthesizes exactly the single `"Complete Document"` chapter over
the whole document with confidence 1.0, detection method `"fallback"` and
`strategy_used = "fallback"`.  (The EPUB detector has no such rule and may
return an empty sequence — see the counterexample.) -/
theorem C1_pdf_whole_document_fallback (pages : List Page)
    (toc : List TocEntry) (sensitivity strategy : Str) (bookmark_level : Int) :
    (detect pages toc sensitivity strategy bookmark_level).chapters ≠ [] ∧
    (detect_from_bookmarks toc (pages.length : Int) bookmark_level = [] →
     detect_from_heuristics (set_thresholds sensitivity).1
        (set_thresholds sensitivity).2 pages = [] →
     (detect pages toc sensitivity strategy bookmark_level).chapters =
        [completeDocumentChapter (pages.length : Int)] ∧
     (detect pages toc sensitivity strategy bookmark_level).strategy_used =
        ("fallback".toList)) := by
  constructor
  · exact (detect_final_shape _ strategy _ _).1
  · intro hbm hheu
    simp only [detect]
    rw [hbm, hheu]
    split_ifs <;> first | exact ⟨rfl, rfl⟩ | (exfalso; simp_all)

/-- **C1 witness** — the fallback theorem applied to a one-page document with
no outline and no headings. -/
theorem C1_pdf_whole_document_fallback_witness :
    detect_from_bookmarks [] (([([] : Page)].length : Int)) 1 = [] ∧
    detect_from_heuristics (set_thresholds ("medium".toList)).1
        (set_thresholds ("medium".toList)).2 [([] : Page)] = [] ∧
    (detect [([] : Page)] [] ("medium".toList) ("hybrid".toList) 1).chapters =
      [completeDocumentChapter (([([] : Page)].length : Int))] :=
  ⟨rfl, rfl,
   ((C1_pdf_whole_document_fallback [([] : Page)] [] ("medium".toList)
      ("hybrid".toList) 1).2 rfl rfl).1⟩


/-- **C3 counterexample** — a hybrid-strategy PDF detection whose chapters
all come from the bookmark stage still reports `strategy_used = "hybrid"`,
the *requested* strategy (the stage-tracking assignments in the source are
dead, overwritten by the final `if`/`else`): the result does not name the
stage that produced the sequence. -/
theorem C3_counterexample :
    (detect [[], [], []] [⟨1, ("A".toList), 1⟩] ("medium".toList)
        ("hybrid".toList) 1).strategy_used = ("hybrid".toList) ∧
    ("hybrid".toList) ≠ ("bookmarks".toList) ∧
    (detect [[], [], []] [⟨1, ("A".toList), 1⟩] ("medium".toList)
        ("hybrid".toList) 1).chapters ≠ [] ∧
    ∀ ch ∈ (detect [[], [], []] [⟨1, ("A".toList), 1⟩] ("medium".toList)
        ("hybrid".toList) 1).chapters,
      ch.detection_method = ("bookmark".toList) := by
  refine ⟨rfl, by decide, by decide, by decide⟩

/-- **C3 (amended)** — on the PDF side, `strategy_used` is the *requested*
strategy whenever any stage produced chapters, and `"fallback"` (with the
whole-document chapter) otherwise; only on the EPUB side does
`strategy_used` name the stage that actually produced the sequence, with a
`" (fallback)"` suffix for the hybrid chain's later stages. -/
theorem C3_strategy_used_reporting :
    (∀ (pages : List Page) (toc : List TocEntry) (sensitivity strategy : Str)
       (bookmark_level : Int),
       ((detect pages toc sensitivity strategy bookmark_level).strategy_used =
           strategy ∧
        (detect pages toc sensitivity strategy bookmark_level).chapters ≠ []) ∨
       ((detect pages toc sensitivity strategy bookmark_level).strategy_used =
           ("fallback".toList) ∧
        (detect pages toc sensitivity strategy bookmark_level).chapters =
          [completeDocumentChapter (pages.length : Int)])) ∧
    (∀ (strategy sensitivity : Str) (toc_level : Int) (book : EpubBook),
       (strategy = ("native".toList) →
         (epubDetect strategy sensitivity toc_level book).strategy_used =
            ("native".toList) ∧
         (epubDetect strategy sensitivity toc_level book).chapters =
            (detect_from_toc toc_level book).1) ∧
       (strategy = ("structural".toList) →
         (epubDetect strategy sensitivity toc_level book).strategy_used =
            ("structural".toList) ∧
         (epubDetect strategy sensitivity toc_level book).chapters =
            detect_from_structure sensitivity book) ∧
       (strategy = ("manifest".toList) →
         (epubDetect strategy sensitivity toc_level book).strategy_used =
            ("manifest".toList) ∧
         (epubDetect strategy sensitivity toc_level book).chapters =
            detect_from_manifest book) ∧
       (strategy ≠ ("native".toList) → strategy ≠ ("structural".toList) →
        strategy ≠ ("manifest".toList) →
         ((detect_from_toc toc_level book).1 ≠ [] →
            (epubDetect strategy sensitivity toc_level book).strategy_used =
               ("native".toList) ∧
            (epubDetect strategy sensitivity toc_level book).chapters =
               (detect_from_toc toc_level book).1) ∧
         ((detect_from_toc toc_level book).1 = [] →
          detect_from_structure sensitivity book ≠ [] →
            (epubDetect strategy sensitivity toc_level book).strategy_used =
               ("structural (fallback)".toList) ∧
            (epubDetect strategy sensitivity toc_level book).chapters =
               detect_from_structure sensitivity book) ∧
         ((detect_from_toc toc_level book).1 = [] →
          detect_from_structure sensitivity book = [] →
            (epubDetect strategy sensitivity toc_level book).strategy_used =
               ("manifest (fallback)".toList) ∧
            (epubDetect strategy sensitivity toc_level book).chapters =
               detect_from_manifest book))) := by
  constructor
  · intro pages toc sensitivity strategy bookmark_level
    have hshape := detect_final_shape
        (if (if strategy = ("bookmarks".toList) ∨
              (strategy = ("hybrid".toList) ∧ (!toc.isEmpty) = true) then
            detect_from_bookmarks toc (pages.length : Int) bookmark_level
          else []).isEmpty ∧
            (strategy = ("heuristic".toList) ∨ strategy = ("hybrid".toList)) then
          detect_from_heuristics (set_thresholds sensitivity).1
            (set_thresholds sensitivity).2 pages
        else
          if strategy = ("bookmarks".toList) ∨
              (strategy = ("hybrid".toList) ∧ (!toc.isEmpty) = true) then
            detect_from_bookmarks toc (pages.length : Int) bookmark_level
          else [])
        strategy (pages.length : Int) (!toc.isEmpty)
    rcases hshape.2 with h | h
    · exact Or.inl ⟨h.1, hshape.1⟩
    · exact Or.inr ⟨h.1, h.2⟩
  · intro strategy sensitivity toc_level book
    refine ⟨?_, ?_, ?_, ?_⟩
    · intro hs
      subst hs
      rw [epubDetect, if_pos rfl]
      exact ⟨rfl, rfl⟩
    · intro hs
      subst hs
      rw [epubDetect, if_neg (by decide), if_pos rfl]
      exact ⟨rfl, rfl⟩
    · intro hs
      subst hs
      rw [epubDetect, if_neg (by decide), if_neg (by decide), if_pos rfl]
      exact ⟨rfl, rfl⟩
    · intro h1 h2 h3
      rw [epubDetect, if_neg h1, if_neg h2, if_neg h3]
      refine ⟨?_, ?_, ?_⟩
      · intro htoc
        have hne : (detect_from_toc toc_level book).1.isEmpty = false := by
          rcases hlist : (detect_from_toc toc_level book).1 with _ | ⟨a, l⟩
          · exact absurd hlist htoc
          · rfl
        simp only [hne, Bool.false_eq_true, if_false]
        constructor <;> first | rfl | trivial
      · intro htoc hstr
        have hb1 : (detect_from_toc toc_level book).1.isEmpty = true := by
          rw [htoc]; rfl
        have hb2 : (detect_from_structure sensitivity book).isEmpty = false := by
          rcases hlist : detect_from_structure sensitivity book with _ | ⟨a, l⟩
          · exact absurd hlist hstr
          · rfl
        simp only [hb1, hb2, if_true, Bool.false_eq_true, if_false]
        constructor <;> first | rfl | trivial
      · intro htoc hstr
        have hb1 : (detect_from_toc toc_level book).1.isEmpty = true := by
          rw [htoc]; rfl
        have hb2 : (detect_from_structure sensitivity book).isEmpty = true := by
          rw [hstr]; rfl
        simp only [hb1, hb2, if_true]
        constructor <;> first | rfl | trivial

/-- **C3 witness** — the PDF half applied to a document with bookmarks under
the hybrid strategy, and the EPUB hybrid chain applied to a book whose TOC is
empty but whose single document carries an `h1` heading. -/
theorem C3_strategy_used_reporting_witness :
    (((detect [[], [], []] [⟨1, ("A".toList), 1⟩] ("medium".toList)
        ("hybrid".toList) 1).strategy_used = ("hybrid".toList) ∧
      (detect [[], [], []] [⟨1, ("A".toList), 1⟩] ("medium".toList)
        ("hybrid".toList) 1).chapters ≠ []) ∨
    ((detect [[], [], []] [⟨1, ("A".toList), 1⟩] ("medium".toList)
        ("hybrid".toList) 1).strategy_used = ("fallback".toList) ∧
      (detect [[], [], []] [⟨1, ("A".toList), 1⟩] ("medium".toList)
        ("hybrid".toList) 1).chapters =
        [completeDocumentChapter (([([] : Page), [], []].length : Int))])) ∧
    ((epubDetect ("hybrid".toList) ("medium".toList) 1
        ⟨[], [⟨("i".toList), ("c.xhtml".toList), 9,
               [⟨("Hello".toList), none⟩], [], [], none, false⟩], [],
         []⟩).strategy_used = ("structural (fallback)".toList) ∧
     (epubDetect ("hybrid".toList) ("medium".toList) 1
        ⟨[], [⟨("i".toList), ("c.xhtml".toList), 9,
               [⟨("Hello".toList), none⟩], [], [], none, false⟩], [],
         []⟩).chapters =
       detect_from_structure ("medium".toList)
         ⟨[], [⟨("i".toList), ("c.xhtml".toList), 9,
                [⟨("Hello".toList), none⟩], [], [], none, false⟩], [],
          []⟩) :=
  ⟨C3_strategy_used_reporting.1 [[], [], []] [⟨1, ("A".toList), 1⟩]
    ("medium".toList) ("hybrid".toList) 1,
   ((C3_strategy_used_reporting.2 ("hybrid".toList) ("medium".toList) 1
      ⟨[], [⟨("i".toList), ("c.xhtml".toList), 9,
             [⟨("Hello".toList), none⟩], [], [], none, false⟩], [],
       []⟩).2.2.2 (by decide) (by decide) (by decide)).2.1 rfl (by decide)⟩

end LazySplitter
